import Mathlib

/-!
# Nerddle: data layer, reputation, posting, voting, routing and guards

A shallow embedding of `src/App.jsx`.

* The durable medium (`window.localStorage`) is a record of three slots, one per key
  (`users`, `currentUser`, `blogs`). A slot is either empty (`getItem` gives a falsy
  value), holds a string that `JSON.parse` rejects, or holds the serialisation of a value;
  `JSON.parse (JSON.stringify x)` is taken to give back `x`.
* A JavaScript object used as a map (`votes`, route `params`) is the association list of its
  own properties. Keys of a real object are pairwise distinct; the functions below do not need
  that, and the order of the list carries no meaning. The objects are plain ones, so the key
  `__proto__` is special: unless it is already an own property (which only parsed data can
  bring), assigning a number or a string to it runs the setter inherited from
  `Object.prototype`, which stores nothing.
* Timestamps are integers (milliseconds since the epoch); an ISO string written by
  `toISOString` and read back with `new Date(..)` denotes the same millisecond.
* Clock reads, `Math.random` and `confirm` are explicit arguments.
-/

namespace Nerddle

/-! ## Durable medium -/

/-- One key of the durable medium, as seen by `raw ? JSON.parse(raw) : ...`. -/
inductive Slot (α : Type) where
  /-- Nothing stored: `getItem` returned `null` (or the empty string), so `!raw` holds. -/
  | empty : Slot α
  /-- A non-empty string that `JSON.parse` rejects with a `SyntaxError`. -/
  | corrupt : Slot α
  /-- The serialisation of `a`. -/
  | data (a : α) : Slot α
  deriving DecidableEq, Repr

/-- A user record (fields of the seed record, lines 24-34). -/
structure User where
  username : String
  password : String
  email : String
  fullname : String
  classLevel : Int
  bio : String
  pfp : String
  joinedAt : Int
  role : String
  deriving DecidableEq, Repr

/-- The `votes` object of a post: voter username to ballot value. -/
abbrev Votes := List (String × Int)

/-- A blog post (fields of `newBlog`, lines 379-386); `votes` may be missing (`b.votes || {}`). -/
structure BlogPost where
  id : String
  title : String
  body : String
  author : String
  createdAt : Int
  votes : Option Votes
  deriving DecidableEq, Repr

/-- The three documents of the durable medium. -/
structure Storage where
  users : Slot (List User)
  currentUser : Slot User
  blogs : Slot (List BlogPost)
  deriving DecidableEq, Repr

/-- Lines 59-62: `raw ? JSON.parse(raw) : []`; `none` stands for the exception of `JSON.parse`. -/
def getBlogs (st : Storage) : Option (List BlogPost) :=
  match st.blogs with
  | .empty => some []
  | .corrupt => none
  | .data bs => some bs

/-- Lines 64-66. -/
def saveBlogs (blogs : List BlogPost) (st : Storage) : Storage :=
  { st with blogs := .data blogs }

/-! ## Aura -/

/-- The body of the inner `forEach` (lines 122-125): one ballot updates `(up, down)`. -/
def countBallot (acc : Nat × Nat) (e : String × Int) : Nat × Nat :=
  if e.2 = 1 then (acc.1 + 1, acc.2)
  else if e.2 = -1 then (acc.1, acc.2 + 1)
  else acc

/-- The body of the outer `forEach` (lines 120-126): all ballots of one post. -/
def countPost (acc : Nat × Nat) (b : BlogPost) : Nat × Nat :=
  (b.votes.getD []).foldl countBallot acc

/-- Search upwards from `k` for the first `j` with `n ≤ 100 * j * j`. -/
def ceilSqrtFrom (n : Nat) : Nat → Nat → Nat
  | 0, k => k
  | fuel + 1, k => if n ≤ 100 * k * k then k else ceilSqrtFrom n fuel (k + 1)

/-- The value of `Math.ceil(Math.sqrt(n / 100))` for a natural number `n`, computed in integers. -/
def ceilSqrtHundredth (n : Nat) : Nat := ceilSqrtFrom n n 0

/-- Lines 127-130, from the two counters. -/
def auraOfCounts (up down : Nat) : Int :=
  let delta : Int := (up : Int) - (down : Int)
  if delta = 0 then 0
  else Int.sign delta * (ceilSqrtHundredth delta.natAbs : Int)

/-- Lines 117-131. -/
def computeAuraForUser (st : Storage) (username : String) : Option Int :=
  match getBlogs st with
  | none => none
  | some all =>
    let blogs := all.filter (fun b => b.author = username)
    let c := blogs.foldl countPost (0, 0)
    some (auraOfCounts c.1 c.2)

/-! ## JavaScript objects and strings -/

/-- The lookup `o[k]` on own properties. The result `none` stands for what the code reads when
`k` is not an own property: `undefined`, or a member inherited from `Object.prototype`; neither
is a number or a string, so a comparison `o[k] === v` with such a `v` fails as it does here. -/
def objGet {α : Type} (o : List (String × α)) (k : String) : Option α :=
  (o.find? (fun e => e.1 = k)).map Prod.snd

/-- The statement `delete o[k]`. -/
def objDelete {α : Type} (o : List (String × α)) (k : String) : List (String × α) :=
  o.filter (fun e => e.1 ≠ k)

/-- The assignment `o[k] = v` of a number or a string to a plain object: overwrite the own
property when present; otherwise add it, except for the key `__proto__`, where the inherited
setter runs and stores nothing. -/
def objSet {α : Type} (o : List (String × α)) (k : String) (v : α) : List (String × α) :=
  if o.any (fun e => e.1 = k) then o.map (fun e => if e.1 = k then (k, v) else e)
  else if k = "__proto__" then o
  else o ++ [(k, v)]

/-- The code points that `String.prototype.trim` strips (WhiteSpace and LineTerminator). -/
def isJsWhitespace (c : Char) : Bool :=
  let n := c.toNat
  n = 0x09 || n = 0x0A || n = 0x0B || n = 0x0C || n = 0x0D || n = 0x20 || n = 0xA0 ||
  n = 0x1680 || (0x2000 ≤ n && n ≤ 0x200A) || n = 0x2028 || n = 0x2029 || n = 0x202F ||
  n = 0x205F || n = 0x3000 || n = 0xFEFF

/-- The method `s.trim()`. -/
def jsTrim (s : String) : String :=
  ⟨((s.data.dropWhile isJsWhitespace).reverse.dropWhile isJsWhitespace).reverse⟩

/-- Truthiness of a value that is a string, `null` or `undefined`. -/
def truthy (s : Option String) : Bool :=
  match s with
  | none => false
  | some t => t ≠ ""

/-! ## Blog domain logic -/

/-- What an event handler leaves behind: the medium, and the `alert` / `navigate` it made. -/
structure Outcome where
  storage : Storage
  alert : Option String
  navigate : Option String
  deriving DecidableEq, Repr

/-- Lines 365-371; `now` is `Date.now()`, the result `none` an exception. -/
def canCreate (currentUser : Option User) (now : Int) (st : Storage) : Option Bool :=
  match currentUser with
  | none => some false
  | some cu =>
    match getBlogs st with
    | none => none
    | some bs =>
      let all := bs.filter (fun b => b.author = cu.username)
      if all.length = 0 then some true
      else
        match all.insertionSort (fun a b => b.createdAt ≤ a.createdAt) with
        | [] => none
        | last :: _ => some (decide (now - last.createdAt ≥ 1000 * 60 * 60))

/-- Lines 373-391; `rnd` is `Math.random().toString(36).slice(2,9)`, `tCheck` the clock read
of `canCreate` and `tStamp` the later one of `new Date()`. -/
def handleCreate (currentUser : Option User) (title body rnd : String) (tCheck tStamp : Int)
    (st : Storage) : Option Outcome :=
  match currentUser with
  | none => some ⟨st, none, some "/login"⟩
  | some cu =>
    if jsTrim title = "" ∨ jsTrim body = "" then some ⟨st, some "Title and body required", none⟩
    else
      match canCreate currentUser tCheck st with
      | none => none
      | some false => some ⟨st, some "You may only post one blog per hour", none⟩
      | some true =>
        match getBlogs st with
        | none => none
        | some blogsArr =>
          let newBlog : BlogPost :=
            { id := "b_" ++ rnd
              title := jsTrim title
              body := jsTrim body
              author := cu.username
              createdAt := tStamp
              votes := some [] }
          some ⟨saveBlogs (newBlog :: blogsArr) st, none, none⟩

/-- Lines 398-401: the new value of a post whose id is the one voted on. -/
def castBallot (who : String) (v : Int) (b : BlogPost) : BlogPost :=
  let votes := b.votes.getD []
  { b with votes := some (if objGet votes who = some v then objDelete votes who
                          else objSet votes who v) }

/-- Lines 393-405; `who` is `currentUser && currentUser.username`. -/
def handleVote (id : String) (who : Option String) (v : Int) (st : Storage) : Option Outcome :=
  match who with
  | none => some ⟨st, some "Please login to vote", none⟩
  | some w =>
    if w = "" then some ⟨st, some "Please login to vote", none⟩
    else
      match getBlogs st with
      | none => none
      | some all =>
        let updated := all.map (fun b => if b.id ≠ id then b else castBallot w v b)
        some ⟨saveBlogs updated st, none, none⟩

/-! ## Routing -/

/-- The call `s.split(sep)` for a one-character separator, on the characters of `s`. -/
def splitChars (sep : Char) : List Char → List (List Char)
  | [] => [[]]
  | c :: cs =>
    if c = sep then [] :: splitChars sep cs
    else
      match splitChars sep cs with
      | [] => [[c]]
      | seg :: rest => (c :: seg) :: rest

/-- The call `s.split('/')`. -/
def segments (s : String) : List String :=
  (splitChars '/' s.data).map String.mk

/-- Line 593: `currentPath.replace('#', '') || '/'`. -/
def cleanPath (currentPath : String) : String :=
  let r : String := ⟨currentPath.data.erase '#'⟩
  if r = "" then "/" else r

/-- The test `seg.startsWith(':')`. -/
def isParam (seg : String) : Bool :=
  seg.data.head? = some ':'

/-- The call `seg.slice(1)`. -/
def paramName (seg : String) : String :=
  ⟨seg.data.tail⟩

/-- Lines 600-603 over the paired segments `(pSeg[i], cSeg[i])`; `none` is `match = false`. -/
def routeLoop : List (String × String) → List (String × String) → Option (List (String × String))
  | [], params => some params
  | (p, c) :: rest, params =>
    if isParam p then routeLoop rest (objSet params (paramName p) c)
    else if p ≠ c then none
    else routeLoop rest params

/-- Lines 591-609. The result `none` is `null`; `some params` is the component rendered with
the bindings `params` spread over its props. -/
def Route (path : String) ( exact : Bool) (currentPath : String) : Option (List (String × String)) :=
  let clean := cleanPath currentPath
  if ':' ∈ path.data then
    let pSeg := segments path
    let cSeg := segments clean
    if pSeg.length ≠ cSeg.length then none
    else routeLoop (pSeg.zip cSeg) []
  else if exact then (if clean = path then some [] else none)
  else (if path.data.isPrefixOf clean.data then some [] else none)

/-- What `ProtectedRoute` does: whether `children` is returned, and the effect's navigation. -/
structure Guarded where
  rendered : Bool
  navigate : Option String
  deriving DecidableEq, Repr

/-- Lines 611-620. -/
def ProtectedRoute (currentUser : Option User) (requiredRole : Option String) : Guarded :=
  match currentUser with
  | none => ⟨false, some "/login"⟩
  | some cu =>
    if truthy requiredRole ∧ some cu.role ≠ requiredRole then ⟨false, some "/"⟩
    else ⟨true, none⟩

/-! ## Users and session -/

/-- Lines 21-23: the result of `encodeURIComponent` on the purple square, after the prefix. -/
def purplePfp : String :=
  "data:image/svg+xml;utf8,%3Csvg%20xmlns%3D'http%3A%2F%2Fwww.w3.org%2F2000%2Fsvg'%20width%3D'400'%20height%3D'400'%3E%3Crect%20width%3D'100%25'%20height%3D'100%25'%20fill%3D'%237c3aed'%2F%3E%3C%2Fsvg%3E"

/-- Lines 24-34; `now` is the clock read of `new Date()`. -/
def seedUsers (now : Int) : List User :=
  [{ username := "gyatt123"
     password := "gyatt123"
     email := "admin@nerddle.local"
     fullname := "Gyatt Admin"
     classLevel := 12
     bio := "Founder & Admin"
     pfp := purplePfp
     joinedAt := now
     role := "admin" }]

/-- Lines 17-43: the returned sequence and the medium afterwards. -/
def getUsers (now : Int) (st : Storage) : List User × Storage :=
  match st.users with
  | .empty => (seedUsers now, { st with users := .data (seedUsers now) })
  | .corrupt => ([], st)
  | .data us => (us, st)

/-- Lines 45-47. -/
def saveUsers (users : List User) (st : Storage) : Storage :=
  { st with users := .data users }

/-- Lines 54-57. -/
def setCurrentUser (u : Option User) (st : Storage) : Storage :=
  match u with
  | some x => { st with currentUser := .data x }
  | none => { st with currentUser := .empty }

/-- The state of `App` (its `currentUser` state variable) together with the medium. -/
structure AppState where
  currentUser : Option User
  storage : Storage
  deriving DecidableEq, Repr

/-- Lines 633-636. -/
def handleLogin (u : User) (app : AppState) : AppState :=
  { currentUser := some u, storage := setCurrentUser (some u) app.storage }

/-- What `LoginPage.submit` leaves behind. -/
structure LoginResult where
  app : AppState
  found : Option User
  err : Option String
  navigate : Option String
  deriving DecidableEq, Repr

/-- Lines 191-202. -/
def submit (now : Int) (username password : String) (app : AppState) : LoginResult :=
  let r := getUsers now app.storage
  let users := r.1
  match users.find? (fun u => u.username = username ∧ u.password = password) with
  | some found =>
    let app1 := handleLogin found { app with storage := r.2 }
    { app := { app1 with storage := setCurrentUser (some found) app1.storage }
      found := some found
      err := none
      navigate := some "/" }
  | none =>
    { app := { app with storage := r.2 }
      found := none
      err := some "Invalid username or password"
      navigate := none }

/-- The `newUser` form of the admin dashboard (line 471). -/
structure NewUser where
  email : String
  pfp : String
  username : String
  fullname : String
  classLevel : Int
  bio : String
  password : String
  deriving DecidableEq, Repr

/-- Lines 480-485; `confirmed` is the answer of `confirm`. -/
def handleDelete (now : Int) (username : String) (confirmed : Bool) (st : Storage) : Storage :=
  if ¬ confirmed then st
  else
    let r := getUsers now st
    let updated := r.1.filter (fun u => u.username ≠ username)
    saveUsers updated r.2

/-- Lines 487-492. -/
def saveEdit (now : Int) (editing : User) (st : Storage) : Storage :=
  let r := getUsers now st
  let updated := r.1.map (fun u => if u.username = editing.username then editing else u)
  saveUsers updated r.2

/-- Lines 494-504; `tJoin` is the clock read of line 500. -/
def addUser (now tJoin : Int) (newUser : NewUser) (st : Storage) : Outcome :=
  if newUser.username = "" ∨ newUser.password = "" ∨ newUser.fullname = "" ∨ newUser.email = ""
  then ⟨st, some "Fill required fields", none⟩
  else
    let r := getUsers now st
    let arr := r.1
    if arr.any (fun u => u.username = newUser.username) then ⟨r.2, some "Username exists", none⟩
    else
      let u : User :=
        { username := newUser.username
          password := newUser.password
          email := newUser.email
          fullname := newUser.fullname
          classLevel := newUser.classLevel
          bio := newUser.bio
          pfp := newUser.pfp
          joinedAt := tJoin
          role := "user" }
      ⟨saveUsers (arr ++ [u]) r.2, none, none⟩

/-- The `form` state of the profile page (line 265). -/
structure ProfileForm where
  fullname : String
  bio : String
  classLevel : Int
  pfp : String
  deriving DecidableEq, Repr

/-- Lines 284-290: the edited copy of the record `u`. -/
def applyProfileForm (currentUser : User) (form : ProfileForm) (u : User) : User :=
  { u with
    fullname := form.fullname
    bio := form.bio
    classLevel := if currentUser.role = "admin" then form.classLevel else u.classLevel
    pfp := if form.pfp ≠ "" then form.pfp else u.pfp }

/-- Lines 280-299 of `ProfilePage`, for the viewer `currentUser` and the route parameter
`username`. -/
def profileSave (now : Int) (currentUser : User) (username : String) (form : ProfileForm)
    (st : Storage) : Storage :=
  let r := getUsers now st
  let users := r.1.map (fun u => if u.username ≠ username then u
                                 else applyProfileForm currentUser form u)
  let st1 := saveUsers users r.2
  let updated := users.find? (fun u => u.username = username)
  if currentUser.username = username then setCurrentUser updated st1 else st1

/-- One of the four operations that write the users collection. -/
inductive UserOp where
  | add (tJoin : Int) (newUser : NewUser)
  | edit (editing : User)
  | delete (username : String) (confirmed : Bool)
  | profile (currentUser : User) (username : String) (form : ProfileForm)
  deriving DecidableEq, Repr

/-- Run one operation on the medium. -/
def UserOp.run (now : Int) (op : UserOp) (st : Storage) : Storage :=
  match op with
  | .add tJoin newUser => (addUser now tJoin newUser st).storage
  | .edit editing => saveEdit now editing st
  | .delete username confirmed => handleDelete now username confirmed st
  | .profile currentUser username form => profileSave now currentUser username form st

/-- Run a sequence of operations, first to last; each comes with the clock value of its run. -/
def runOps (ops : List (Int × UserOp)) (st : Storage) : Storage :=
  ops.foldl (fun s op => op.2.run op.1 s) st

/-- Line 277: who may edit the profile shown for `username`; the Save button is rendered only
under `canEdit && ...` (lines 324-338). -/
def canEdit (currentUser : User) (username : String) : Bool :=
  currentUser.username = username || currentUser.role = "admin"

/-- Lines 275 and 324-338: whether the profile page shows the Save button. `user` is the record
the page has loaded (with `null` it shows "User not found" and nothing else), `editing` its
edit mode. -/
def saveButtonRendered (user : Option User) (currentUser : User) (username : String)
    (editing : Bool) : Bool :=
  user.isSome && (canEdit currentUser username && editing)

/-- An attempt to save from the profile page (line 338, `onClick={save}`): `save` runs when the
Save button is on the page; without the button there is nothing to invoke and nothing changes. -/
def attemptSave (now : Int) (user : Option User) (editing : Bool) (currentUser : User)
    (username : String) (form : ProfileForm) (st : Storage) : Storage :=
  if saveButtonRendered user currentUser username editing
  then profileSave now currentUser username form st
  else st

/-- Lines 128-130 as a function of `delta` alone. -/
def auraOfDelta (delta : Int) : Int :=
  if delta = 0 then 0
  else Int.sign delta * (ceilSqrtHundredth delta.natAbs : Int)

/-! ## Specification-side definitions -/

/-- The number of ballots of value `v` on a post, read off its `votes` map. -/
def ballotCount (v : Int) (b : BlogPost) : Nat :=
  (b.votes.getD []).countP (fun e => e.2 = v)

/-- The net vote delta of the specification: `+1` ballots minus `-1` ballots, summed over
the posts of `P` whose author is `username`; a post by another author contributes `0`. -/
def specDelta (P : List BlogPost) (username : String) : Int :=
  (P.map (fun b => if b.author = username
                   then (ballotCount 1 b : Int) - (ballotCount (-1) b : Int) else 0)).sum

/-- A post by `author` with `up` upvotes and `down` downvotes, cast by distinct voters. -/
def samplePost (author : String) (up down : Nat) : BlogPost :=
  { id := "b_sample"
    title := "T"
    body := "B"
    author := author
    createdAt := 0
    votes := some ((List.range up).map (fun i => (String.mk ('u' :: List.replicate i 'x'), (1 : Int)))
                ++ (List.range down).map (fun i => (String.mk ('d' :: List.replicate i 'x'), (-1 : Int)))) }

/-- The ballots that voter `who` holds on post `b`: the values stored under that key. -/
def ballotsOf (who : String) (b : BlogPost) : List Int :=
  ((b.votes.getD []).filter (fun e => e.1 = who)).map Prod.snd

/-- A stored collection of two posts; `bob` has voted on the first, nobody on the second. -/
def samplePosts : List BlogPost :=
  [ { id := "b_1", title := "T", body := "B", author := "alice", createdAt := 1000,
      votes := some [("bob", 1)] },
    { id := "b_2", title := "T2", body := "B2", author := "bob", createdAt := 2000,
      votes := none } ]

/-- Whether the operation is a delete that the administrator confirmed. -/
def UserOp.removes : UserOp → Bool
  | .delete _ confirmed => confirmed
  | _ => false

/-- The medium stores a users collection with at least one record. -/
def UsersNonEmpty (st : Storage) : Prop :=
  ∃ us : List User, us ≠ [] ∧ st.users = .data us

/-- A filled-in `newUser` form. -/
def sampleNewUser : NewUser :=
  { email := "bob@nerddle.local", pfp := "", username := "bob", fullname := "Bob",
    classLevel := 9, bio := "", password := "pw" }

/-- The medium stores a users collection whose usernames are pairwise distinct. -/
def UsernamesDistinct (st : Storage) : Prop :=
  ∃ us : List User, st.users = .data us ∧ (us.map User.username).Nodup

/-- A stored user named `bob`, not an administrator. -/
def sampleBob : User :=
  { username := "bob", password := "pw", email := "bob@nerddle.local", fullname := "Bob",
    classLevel := 9, bio := "hello", pfp := "", joinedAt := 1, role := "user" }

/-- Another stored user, `mallory`, not an administrator. -/
def sampleMallory : User :=
  { username := "mallory", password := "pw2", email := "mallory@nerddle.local",
    fullname := "Mallory", classLevel := 10, bio := "", pfp := "", joinedAt := 2, role := "user" }

/-- A filled-in profile form. -/
def sampleForm : ProfileForm :=
  { fullname := "Robert", bio := "edited", classLevel := 12, pfp := "" }

/-! ## Aura: proofs -/

theorem foldl_countBallot (votes : Votes) (acc : Nat × Nat) :
    votes.foldl countBallot acc
      = (acc.1 + votes.countP (fun e => e.2 = 1), acc.2 + votes.countP (fun e => e.2 = -1)) := by
  induction votes generalizing acc with
  | nil => simp
  | cons e rest ih =>
    rw [List.foldl_cons, ih]
    unfold countBallot
    by_cases h1 : e.2 = 1
    · have h2 : ¬ e.2 = -1 := by omega
      simp [h1, List.countP_cons]
      omega
    · by_cases h2 : e.2 = -1
      · simp [h2, List.countP_cons]
        omega
      · simp [h1, h2, List.countP_cons]

theorem foldl_countPost (blogs : List BlogPost) (acc : Nat × Nat) :
    blogs.foldl countPost acc
      = (acc.1 + (blogs.map (ballotCount 1)).sum, acc.2 + (blogs.map (ballotCount (-1))).sum) := by
  induction blogs generalizing acc with
  | nil => simp
  | cons b rest ih =>
    rw [List.foldl_cons, ih]
    simp only [countPost, foldl_countBallot, List.map_cons, List.sum_cons, ballotCount]
    ext <;> simp <;> omega

theorem specDelta_eq_filter (P : List BlogPost) (username : String) :
    specDelta P username
      = (((P.filter (fun b => b.author = username)).map (ballotCount 1)).sum : Int)
        - (((P.filter (fun b => b.author = username)).map (ballotCount (-1))).sum : Int) := by
  induction P with
  | nil => simp [specDelta]
  | cons b rest ih =>
    unfold specDelta at ih ⊢
    by_cases h : b.author = username
    · simp only [List.map_cons, List.sum_cons, h, if_true, List.filter_cons, decide_True, ih]
      push_cast
      ring
    · simp only [List.map_cons, List.sum_cons, h, if_false, List.filter_cons, decide_False, ih]
      simp

theorem ceilSqrtFrom_spec (n : Nat) : ∀ (fuel k : Nat),
    (∀ j, j < k → 100 * j * j < n) → n ≤ 100 * (k + fuel) * (k + fuel) →
    n ≤ 100 * ceilSqrtFrom n fuel k * ceilSqrtFrom n fuel k
      ∧ ∀ j, j < ceilSqrtFrom n fuel k → 100 * j * j < n := by
  intro fuel
  induction fuel with
  | zero =>
    intro k hlow hup
    simpa [ceilSqrtFrom] using ⟨hup, hlow⟩
  | succ f ih =>
    intro k hlow hup
    unfold ceilSqrtFrom
    by_cases hk : n ≤ 100 * k * k
    · rw [if_pos hk]
      exact ⟨hk, hlow⟩
    · rw [if_neg hk]
      apply ih (k + 1)
      · intro j hj
        rcases Nat.lt_succ_iff_lt_or_eq.mp hj with h | h
        · exact hlow j h
        · subst h; omega
      · have : k + 1 + f = k + (f + 1) := by omega
        rw [this]; exact hup

theorem ceilSqrtHundredth_spec (n : Nat) :
    n ≤ 100 * ceilSqrtHundredth n * ceilSqrtHundredth n
      ∧ ∀ j, j < ceilSqrtHundredth n → 100 * j * j < n := by
  apply ceilSqrtFrom_spec n n 0
  · intro j hj; omega
  · simp only [Nat.zero_add]
    linarith [Nat.le_mul_self n, Nat.zero_le (n * n)]

theorem ceilSqrtHundredth_le_iff (n k : Nat) :
    ceilSqrtHundredth n ≤ k ↔ n ≤ 100 * k * k := by
  obtain ⟨h1, h2⟩ := ceilSqrtHundredth_spec n
  constructor
  · intro h
    calc n ≤ 100 * ceilSqrtHundredth n * ceilSqrtHundredth n := h1
      _ ≤ 100 * k * k := by
        have := Nat.mul_le_mul h h
        nlinarith
  · intro h
    by_contra hc
    have := h2 k (by omega)
    omega

theorem ceilSqrtHundredth_eq_ceil (n : Nat) :
    (ceilSqrtHundredth n : Int) = ⌈Real.sqrt ((n : ℝ) / 100)⌉ := by
  symm
  rw [Int.ceil_eq_iff]
  obtain ⟨h1, h2⟩ := ceilSqrtHundredth_spec n
  constructor
  · rcases Nat.eq_zero_or_pos (ceilSqrtHundredth n) with h0 | hpos
    · rw [h0]
      have := Real.sqrt_nonneg ((n : ℝ) / 100)
      push_cast
      linarith
    · obtain ⟨j, hj⟩ : ∃ j, ceilSqrtHundredth n = j + 1 := ⟨ceilSqrtHundredth n - 1, by omega⟩
      have hlt := h2 j (by omega)
      rw [hj]
      push_cast
      have hj0 : (0 : ℝ) ≤ (j : ℝ) := Nat.cast_nonneg j
      have hlt' : (100 : ℝ) * j * j < n := by exact_mod_cast hlt
      have : (j : ℝ) < Real.sqrt ((n : ℝ) / 100) := by
        rw [Real.lt_sqrt hj0]
        nlinarith
      linarith
  · push_cast
    rw [Real.sqrt_le_left (Nat.cast_nonneg _)]
    have h1' : (n : ℝ) ≤ 100 * (ceilSqrtHundredth n : ℝ) * (ceilSqrtHundredth n : ℝ) := by
      exact_mod_cast h1
    nlinarith

theorem computeAuraForUser_data (us : Slot (List User)) (cu : Slot User) (P : List BlogPost)
    (username : String) :
    computeAuraForUser ⟨us, cu, .data P⟩ username
      = some (if specDelta P username = 0 then 0
              else Int.sign (specDelta P username)
                     * (ceilSqrtHundredth (specDelta P username).natAbs : Int)) := by
  simp only [computeAuraForUser, getBlogs, foldl_countPost, auraOfCounts, specDelta_eq_filter]
  simp

/-- C1. On every stored post collection and for every username, `computeAuraForUser` returns
`0` when the net delta of the user's own posts is `0` and `sign delta * ceil (sqrt (|delta| / 100))`
otherwise; the absolute value of the result is the least `k` with `100 * k * k ≥ |delta|`; and
250 upvotes with 50 downvotes give aura `2`. -/
theorem computeAuraForUser_spec (us : Slot (List User)) (cu : Slot User) (P : List BlogPost)
    (username : String) :
    ∃ aura : Int,
      computeAuraForUser ⟨us, cu, .data P⟩ username = some aura
      ∧ aura = (if specDelta P username = 0 then 0
                else Int.sign (specDelta P username)
                       * ⌈Real.sqrt ((|specDelta P username| : ℝ) / 100)⌉)
      ∧ (∀ k : Nat, aura.natAbs ≤ k ↔ (specDelta P username).natAbs ≤ 100 * k * k)
      ∧ specDelta [samplePost username 250 50] username = 200
      ∧ computeAuraForUser ⟨us, cu, .data [samplePost username 250 50]⟩ username = some 2 := by
  have hsample : specDelta [samplePost username 250 50] username = 200 := by
    simp [specDelta, samplePost, ballotCount, List.countP_append, List.countP_map,
      Function.comp_def, List.countP_true, List.countP_false]
  refine ⟨_, computeAuraForUser_data us cu P username, ?_, ?_, hsample, ?_⟩
  · by_cases h : specDelta P username = 0
    · simp [h]
    · simp only [h, if_false]
      rw [ceilSqrtHundredth_eq_ceil, Nat.cast_natAbs, Int.cast_abs]
  · intro k
    by_cases h : specDelta P username = 0
    · simp [h]
    · simp only [h, if_false]
      rw [Int.natAbs_mul, Int.natAbs_sign_of_nonzero h, Nat.one_mul, Int.natAbs_ofNat,
        ceilSqrtHundredth_le_iff]
  · rw [computeAuraForUser_data, hsample]
    decide

/-! ## Voting: proofs -/

theorem objGet_eq_none_of_absent {α : Type} (o : List (String × α)) (k : String)
    (h : o.filter (fun e => e.1 = k) = []) : objGet o k = none := by
  unfold objGet
  rw [Option.map_eq_none', List.find?_eq_none]
  intro e he
  have := List.filter_eq_nil_iff.mp h e he
  simpa using this

theorem any_key_false_of_absent {α : Type} (o : List (String × α)) (k : String)
    (h : o.filter (fun e => e.1 = k) = []) : o.any (fun e => e.1 = k) = false := by
  rw [List.any_eq_false]
  intro e he
  have := List.filter_eq_nil_iff.mp h e he
  simpa using this

theorem objGet_append_fresh {α : Type} (o : List (String × α)) (k : String) (v : α)
    (h : o.filter (fun e => e.1 = k) = []) : objGet (o ++ [(k, v)]) k = some v := by
  unfold objGet
  have hnone : o.find? (fun e => decide (e.1 = k)) = none := by
    rw [List.find?_eq_none]
    intro e he
    have := List.filter_eq_nil_iff.mp h e he
    simpa using this
  simp [List.find?_append, hnone]

theorem objDelete_append_fresh {α : Type} (o : List (String × α)) (k : String) (v : α)
    (h : o.filter (fun e => e.1 = k) = []) : objDelete (o ++ [(k, v)]) k = o := by
  unfold objDelete
  rw [List.filter_append]
  have h1 : o.filter (fun e => decide (e.1 ≠ k)) = o := by
    rw [List.filter_eq_self]
    intro e he
    have := List.filter_eq_nil_iff.mp h e he
    simpa using this
  rw [h1]
  simp

theorem objSet_append_fresh {α : Type} (o : List (String × α)) (k : String) (v w : α)
    (h : o.filter (fun e => e.1 = k) = []) : objSet (o ++ [(k, v)]) k w = o ++ [(k, w)] := by
  unfold objSet
  have h1 : o.map (fun e => if e.1 = k then (k, w) else e) = o := by
    conv_rhs => rw [← List.map_id o]
    apply List.map_congr_left
    intro e he
    have := List.filter_eq_nil_iff.mp h e he
    simp at this
    simp [this]
  simp [h1]

theorem castBallot_id (who : String) (v : Int) (b : BlogPost) : (castBallot who v b).id = b.id := rfl

theorem objSet_fresh {α : Type} (o : List (String × α)) (k : String) (v : α)
    (h : o.filter (fun e => e.1 = k) = []) (hk : k ≠ "__proto__") :
    objSet o k v = o ++ [(k, v)] := by
  simp [objSet, any_key_false_of_absent _ _ h, hk]

theorem objSet_proto_fresh {α : Type} (o : List (String × α)) (v : α)
    (h : o.filter (fun e => e.1 = "__proto__") = []) : objSet o "__proto__" v = o := by
  simp [objSet, any_key_false_of_absent _ _ h]

theorem castBallot_votes (who : String) (v : Int) (b : BlogPost) :
    (castBallot who v b).votes
      = some (if objGet (b.votes.getD []) who = some v then objDelete (b.votes.getD []) who
              else objSet (b.votes.getD []) who v) := rfl

theorem castBallot_fresh (who : String) (b : BlogPost) (v : Int)
    (habs : (b.votes.getD []).filter (fun e => e.1 = who) = []) (hk : who ≠ "__proto__") :
    (castBallot who v b).votes = some (b.votes.getD [] ++ [(who, v)]) := by
  simp only [castBallot, objGet_eq_none_of_absent _ _ habs, objSet_fresh _ _ _ habs hk]
  simp

theorem castBallot_proto_fresh (b : BlogPost) (v : Int)
    (habs : (b.votes.getD []).filter (fun e => e.1 = "__proto__") = []) :
    (castBallot "__proto__" v b).votes = some (b.votes.getD []) := by
  simp only [castBallot, objGet_eq_none_of_absent _ _ habs, objSet_proto_fresh _ _ habs]
  simp

theorem ballotsOf_castBallot_twice (who : String) (b : BlogPost) (v : Int)
    (h : ballotsOf who b = []) :
    ballotsOf who (castBallot who v (castBallot who v b)) = [] := by
  have habs : (b.votes.getD []).filter (fun e => e.1 = who) = [] := by
    simpa [ballotsOf] using h
  by_cases hk : who = "__proto__"
  · subst hk
    have h1 := castBallot_proto_fresh b v habs
    have habs1 : ((castBallot "__proto__" v b).votes.getD []).filter
        (fun e => e.1 = "__proto__") = [] := by
      rw [h1]; simpa using habs
    have h2 := castBallot_proto_fresh (castBallot "__proto__" v b) v habs1
    unfold ballotsOf
    rw [h2, h1]
    simpa using habs
  · have h1 := castBallot_fresh who b v habs hk
    unfold ballotsOf
    rw [castBallot_votes who v (castBallot who v b), h1]
    simp [objGet_append_fresh _ _ _ habs, objDelete_append_fresh _ _ _ habs, habs]

theorem votes_castBallot_flip (who : String) (b : BlogPost) (v w : Int) (hvw : v ≠ w)
    (hk : who ≠ "__proto__") (h : ballotsOf who b = []) :
    (castBallot who w (castBallot who v b)).votes = some (b.votes.getD [] ++ [(who, w)]) := by
  have habs : (b.votes.getD []).filter (fun e => e.1 = who) = [] := by
    simpa [ballotsOf] using h
  have h1 := castBallot_fresh who b v habs hk
  rw [castBallot_votes who w (castBallot who v b), h1]
  simp [objGet_append_fresh _ _ _ habs, objSet_append_fresh _ _ _ _ habs, hvw]

theorem ballotsOf_castBallot_flip (who : String) (b : BlogPost) (v w : Int) (hvw : v ≠ w)
    (hk : who ≠ "__proto__") (h : ballotsOf who b = []) :
    ballotsOf who (castBallot who w (castBallot who v b)) = [w] := by
  have habs : (b.votes.getD []).filter (fun e => e.1 = who) = [] := by
    simpa [ballotsOf] using h
  unfold ballotsOf
  rw [votes_castBallot_flip who b v w hvw hk h]
  simp [habs]

theorem handleVote_data (us : Slot (List User)) (cu : Slot User) (P : List BlogPost)
    (id who : String) (v : Int) (hwho : who ≠ "") :
    handleVote id (some who) v ⟨us, cu, .data P⟩
      = some ⟨⟨us, cu, .data (P.map (fun b => if b.id ≠ id then b else castBallot who v b))⟩,
              none, none⟩ := by
  simp [handleVote, hwho, getBlogs, saveBlogs]

theorem handleVote_twice_data (us : Slot (List User)) (cu : Slot User) (P : List BlogPost)
    (id who : String) (v w : Int) (hwho : who ≠ "") :
    (handleVote id (some who) v ⟨us, cu, .data P⟩).bind
        (fun o => handleVote id (some who) w o.storage)
      = some ⟨⟨us, cu, .data (P.map (fun b => if b.id ≠ id then b
                                    else castBallot who w (castBallot who v b)))⟩, none, none⟩ := by
  rw [handleVote_data us cu P id who v hwho]
  simp only [Option.some_bind]
  rw [handleVote_data us cu _ id who w hwho]
  congr 4
  rw [List.map_map]
  apply List.map_congr_left
  intro b _
  by_cases hb : b.id = id
  · simp [hb, castBallot_id]
  · simp [hb]

/-- C2, as amended. Voting is a strict toggle. On a stored collection `P` that has a post with
id `id`, and for a logged-in voter `who` (a non-empty username) who holds no ballot on the posts
with that id: `handleVote id who 1` twice in succession stores a collection with the same ids in
which `who` holds no ballot on those posts; and, when the username is not `__proto__`,
`handleVote id who 1` followed by `handleVote id who (-1)` stores one in which `who` holds
exactly one ballot on them, of value `-1`. -/
theorem handleVote_toggle (us : Slot (List User)) (cu : Slot User) (P : List BlogPost)
    (id who : String) (hwho : who ≠ "") (hid : ∃ b ∈ P, b.id = id)
    (hno : ∀ b ∈ P, b.id = id → ballotsOf who b = []) :
    (∃ P2 : List BlogPost,
      (handleVote id (some who) 1 ⟨us, cu, .data P⟩).bind
          (fun o => handleVote id (some who) 1 o.storage)
        = some ⟨⟨us, cu, .data P2⟩, none, none⟩
      ∧ P2.map BlogPost.id = P.map BlogPost.id
      ∧ (∃ b ∈ P2, b.id = id)
      ∧ ∀ b ∈ P2, b.id = id → ballotsOf who b = [] ∧ objGet (b.votes.getD []) who = none)
    ∧ (who ≠ "__proto__" → ∃ P2 : List BlogPost,
      (handleVote id (some who) 1 ⟨us, cu, .data P⟩).bind
          (fun o => handleVote id (some who) (-1) o.storage)
        = some ⟨⟨us, cu, .data P2⟩, none, none⟩
      ∧ P2.map BlogPost.id = P.map BlogPost.id
      ∧ (∃ b ∈ P2, b.id = id)
      ∧ ∀ b ∈ P2, b.id = id → ballotsOf who b = [-1] ∧ objGet (b.votes.getD []) who = some (-1)) := by
  obtain ⟨b0, hb0, hb0id⟩ := hid
  constructor
  · refine ⟨_, handleVote_twice_data us cu P id who 1 1 hwho, ?_, ?_, ?_⟩
    · rw [List.map_map]
      apply List.map_congr_left
      intro b _
      by_cases hb : b.id = id
      · simp [hb, castBallot_id]
      · simp [hb]
    · refine ⟨castBallot who 1 (castBallot who 1 b0), ?_, ?_⟩
      · rw [List.mem_map]
        exact ⟨b0, hb0, by simp [hb0id]⟩
      · simp [castBallot_id, hb0id]
    · intro b hb hbid
      rw [List.mem_map] at hb
      obtain ⟨a, ha, rfl⟩ := hb
      by_cases haid : a.id = id
      · simp only [haid, ne_eq, not_true_eq_false, if_false]
        have h := ballotsOf_castBallot_twice who a 1 (hno a ha haid)
        refine ⟨h, objGet_eq_none_of_absent _ _ ?_⟩
        simpa [ballotsOf] using h
      · simp [haid] at hbid
  · intro hproto
    refine ⟨_, handleVote_twice_data us cu P id who 1 (-1) hwho, ?_, ?_, ?_⟩
    · rw [List.map_map]
      apply List.map_congr_left
      intro b _
      by_cases hb : b.id = id
      · simp [hb, castBallot_id]
      · simp [hb]
    · refine ⟨castBallot who (-1) (castBallot who 1 b0), ?_, ?_⟩
      · rw [List.mem_map]
        exact ⟨b0, hb0, by simp [hb0id]⟩
      · simp [castBallot_id, hb0id]
    · intro b hb hbid
      rw [List.mem_map] at hb
      obtain ⟨a, ha, rfl⟩ := hb
      by_cases haid : a.id = id
      · simp only [haid, ne_eq, not_true_eq_false, if_false]
        have habs : (a.votes.getD []).filter (fun e => e.1 = who) = [] := by
          simpa [ballotsOf] using hno a ha haid
        refine ⟨ballotsOf_castBallot_flip who a 1 (-1) (by decide) hproto (hno a ha haid), ?_⟩
        rw [votes_castBallot_flip who a 1 (-1) (by decide) hproto (hno a ha haid)]
        exact objGet_append_fresh _ _ _ habs
      · simp [haid] at hbid

/-- The toggle on `samplePosts`: voter `alice` on post `b_1`. -/
theorem handleVote_toggle_witness :
    ("alice" ≠ "" ∧ (∃ b ∈ samplePosts, b.id = "b_1")
      ∧ ∀ b ∈ samplePosts, b.id = "b_1" → ballotsOf "alice" b = [])
    ∧ (∃ P2 : List BlogPost,
      (handleVote "b_1" (some "alice") 1 ⟨.empty, .empty, .data samplePosts⟩).bind
          (fun o => handleVote "b_1" (some "alice") 1 o.storage)
        = some ⟨⟨.empty, .empty, .data P2⟩, none, none⟩
      ∧ P2.map BlogPost.id = samplePosts.map BlogPost.id
      ∧ (∃ b ∈ P2, b.id = "b_1")
      ∧ ∀ b ∈ P2, b.id = "b_1" →
          ballotsOf "alice" b = [] ∧ objGet (b.votes.getD []) "alice" = none)
    ∧ "alice" ≠ "__proto__"
    ∧ (∃ P2 : List BlogPost,
      (handleVote "b_1" (some "alice") 1 ⟨.empty, .empty, .data samplePosts⟩).bind
          (fun o => handleVote "b_1" (some "alice") (-1) o.storage)
        = some ⟨⟨.empty, .empty, .data P2⟩, none, none⟩
      ∧ P2.map BlogPost.id = samplePosts.map BlogPost.id
      ∧ (∃ b ∈ P2, b.id = "b_1")
      ∧ ∀ b ∈ P2, b.id = "b_1" →
          ballotsOf "alice" b = [-1] ∧ objGet (b.votes.getD []) "alice" = some (-1)) :=
  ⟨⟨by decide, by decide, by decide⟩,
   (handleVote_toggle .empty .empty samplePosts "b_1" "alice"
      (by decide) (by decide) (by decide)).1,
   by decide,
   (handleVote_toggle .empty .empty samplePosts "b_1" "alice"
      (by decide) (by decide) (by decide)).2 (by decide)⟩

/-- C2, the claim as stated fails for the voter named `__proto__`, a username that `addUser`
accepts: the voter holds no ballot on post `b_1`, and after `handleVote` with `1` and then with
`-1` the stored posts are the same as before and the voter still holds no ballot, not one
ballot of value `-1` (the assignment `votes[who] = v` runs the inherited setter and stores
nothing). -/
theorem handleVote_proto_voter :
    ("__proto__" ≠ "" ∧ (∃ b ∈ samplePosts, b.id = "b_1")
      ∧ ∀ b ∈ samplePosts, b.id = "b_1" → ballotsOf "__proto__" b = [])
    ∧ (addUser 0 1 { sampleNewUser with username := "__proto__" }
          ⟨.data [], .empty, .empty⟩).alert = none
    ∧ (handleVote "b_1" (some "__proto__") 1 ⟨.empty, .empty, .data samplePosts⟩).bind
          (fun o => handleVote "b_1" (some "__proto__") (-1) o.storage)
        = some ⟨⟨.empty, .empty, .data
            [ { id := "b_1", title := "T", body := "B", author := "alice", createdAt := 1000,
                votes := some [("bob", 1)] },
              { id := "b_2", title := "T2", body := "B2", author := "bob", createdAt := 2000,
                votes := none } ]⟩, none, none⟩
    ∧ ballotsOf "__proto__"
        { id := "b_1", title := "T", body := "B", author := "alice", createdAt := 1000,
          votes := some [("bob", 1)] } = [] := by
  decide

/-! ## Rate limit: proofs -/

theorem insertionSort_head_newest (l : List BlogPost) (last : BlogPost) (rest : List BlogPost)
    (h : l.insertionSort (fun a b => b.createdAt ≤ a.createdAt) = last :: rest) :
    last ∈ l ∧ ∀ q ∈ l, q.createdAt ≤ last.createdAt := by
  have htot : IsTotal BlogPost (fun a b => b.createdAt ≤ a.createdAt) :=
    ⟨fun a b => le_total b.createdAt a.createdAt⟩
  have htr : IsTrans BlogPost (fun a b => b.createdAt ≤ a.createdAt) :=
    ⟨fun _ _ _ hab hbc => le_trans hbc hab⟩
  have hsorted := List.sorted_insertionSort (fun a b : BlogPost => b.createdAt ≤ a.createdAt) l
  have hmem : ∀ x, x ∈ last :: rest ↔ x ∈ l := by
    intro x
    rw [← h]
    exact List.mem_insertionSort _
  rw [h] at hsorted
  have hrel := List.rel_of_sorted_cons hsorted
  refine ⟨(hmem last).mp (List.mem_cons_self _ _), ?_⟩
  intro q hq
  rcases List.mem_cons.mp ((hmem q).mpr hq) with hql | hqr
  · rw [hql]
  · exact hrel q hqr

theorem canCreate_filter (us : Slot (List User)) (cu : Slot User) (P : List BlogPost)
    (author : User) (now : Int) :
    canCreate (some author) now ⟨us, cu, .data P⟩
      = canCreate (some author) now
          ⟨us, cu, .data (P.filter (fun b => b.author = author.username))⟩ := by
  simp [canCreate, getBlogs, List.filter_filter]

theorem canCreate_result (us : Slot (List User)) (cu : Slot User) (P : List BlogPost)
    (author : User) (now : Int) :
    ∃ r : Bool, canCreate (some author) now ⟨us, cu, .data P⟩ = some r
      ∧ (r = true ↔
          (∀ b ∈ P, b.author ≠ author.username)
          ∨ ∃ b ∈ P, b.author = author.username
              ∧ (∀ q ∈ P, q.author = author.username → q.createdAt ≤ b.createdAt)
              ∧ now - b.createdAt ≥ 3600000) := by
  cases hall : P.filter (fun b => b.author = author.username) with
  | nil =>
    refine ⟨true, by simp [canCreate, getBlogs, hall], ?_⟩
    simp only [true_iff]
    left
    intro b hb hba
    have : b ∈ P.filter (fun b => b.author = author.username) := by
      simp [List.mem_filter, hb, hba]
    rw [hall] at this
    exact absurd this (List.not_mem_nil _)
  | cons a as =>
    cases hsort : (a :: as).insertionSort (fun x y => y.createdAt ≤ x.createdAt) with
    | nil =>
      have := List.length_insertionSort (fun x y : BlogPost => y.createdAt ≤ x.createdAt) (a :: as)
      rw [hsort] at this
      simp at this
    | cons last rest =>
      obtain ⟨hmem, hmax⟩ := insertionSort_head_newest _ _ _ hsort
      rw [← hall] at hmem hmax
      have hlastP : last ∈ P := (List.mem_filter.mp hmem).1
      have hlastA : last.author = author.username := by
        simpa using (List.mem_filter.mp hmem).2
      refine ⟨decide (now - last.createdAt ≥ 3600000), ?_, ?_⟩
      · simp [canCreate, getBlogs, hall, hsort]
      · rw [decide_eq_true_iff]
        constructor
        · intro h
          right
          refine ⟨last, hlastP, hlastA, ?_, h⟩
          intro q hq hqa
          exact hmax q (by simp [List.mem_filter, hq, hqa])
        · rintro (h | ⟨b, hb, hba, hbmax, hnow⟩)
          · exact absurd hlastA (h last hlastP)
          · have h1 : last.createdAt ≤ b.createdAt := hbmax last hlastP hlastA
            have h2 : b.createdAt ≤ last.createdAt :=
              hmax b (by simp [List.mem_filter, hb, hba])
            omega

/-- C3. For a logged-in author, `canCreate` returns a boolean on every stored collection, and it
is `true` exactly when the author has no post in the collection or a post of the author with the
greatest `createdAt` among the author's posts satisfies `now - createdAt ≥ 3600000`; the result
depends only on the author's own posts; and with a single post at time `T` it is `false` at
`T + 59 min` and `true` at `T + 60 min`. -/
theorem canCreate_spec (us : Slot (List User)) (cu : Slot User) (P : List BlogPost)
    (author : User) (now : Int) :
    (∃ r : Bool, canCreate (some author) now ⟨us, cu, .data P⟩ = some r
      ∧ (r = true ↔
          (∀ b ∈ P, b.author ≠ author.username)
          ∨ ∃ b ∈ P, b.author = author.username
              ∧ (∀ q ∈ P, q.author = author.username → q.createdAt ≤ b.createdAt)
              ∧ now - b.createdAt ≥ 3600000))
    ∧ canCreate (some author) now ⟨us, cu, .data P⟩
        = canCreate (some author) now
            ⟨us, cu, .data (P.filter (fun b => b.author = author.username))⟩
    ∧ (∀ (b : BlogPost) (T : Int),
        canCreate (some author) (T + 59 * 60 * 1000)
            ⟨us, cu, .data [{ b with author := author.username, createdAt := T }]⟩ = some false
        ∧ canCreate (some author) (T + 60 * 60 * 1000)
            ⟨us, cu, .data [{ b with author := author.username, createdAt := T }]⟩ = some true) := by
  refine ⟨canCreate_result us cu P author now, canCreate_filter us cu P author now, ?_⟩
  intro b T
  constructor
  · simp [canCreate, getBlogs, List.insertionSort, List.orderedInsert]
  · simp [canCreate, getBlogs, List.insertionSort, List.orderedInsert]

/-! ## Post creation: proofs -/

/-- C4. For a logged-in author and every stored sequence `P`: when the title or the body is
empty after trimming, or `canCreate` is false, `handleCreate` alerts and leaves the medium
exactly as it was; otherwise the stored sequence becomes the new post (that author, the trimmed
title and body, `createdAt` the clock read, an empty `votes` map) followed by `P`. -/
theorem handleCreate_spec (us : Slot (List User)) (cu : Slot User) (P : List BlogPost)
    (author : User) (title body rnd : String) (tCheck tStamp : Int) :
    handleCreate (some author) title body rnd tCheck tStamp ⟨us, cu, .data P⟩
      = (if jsTrim title = "" ∨ jsTrim body = ""
            ∨ canCreate (some author) tCheck ⟨us, cu, .data P⟩ = some false
         then some ⟨⟨us, cu, .data P⟩,
                    some (if jsTrim title = "" ∨ jsTrim body = "" then "Title and body required"
                          else "You may only post one blog per hour"), none⟩
         else some ⟨⟨us, cu, .data ({ id := "b_" ++ rnd
                                      title := jsTrim title
                                      body := jsTrim body
                                      author := author.username
                                      createdAt := tStamp
                                      votes := some [] } :: P)⟩, none, none⟩)
    ∧ jsTrim " \t\n" = "" ∧ jsTrim "  My title \n" = "My title" := by
  refine ⟨?_, by decide, by decide⟩
  obtain ⟨r, hr, -⟩ := canCreate_result us cu P author tCheck
  by_cases hblank : jsTrim title = "" ∨ jsTrim body = ""
  · have hc : (jsTrim title = "" ∨ jsTrim body = ""
        ∨ canCreate (some author) tCheck ⟨us, cu, .data P⟩ = some false) := by
      rcases hblank with h | h
      · exact Or.inl h
      · exact Or.inr (Or.inl h)
    rw [if_pos hc, if_pos hblank]
    simp only [handleCreate, if_pos hblank]
  · have ht : ¬ jsTrim title = "" := fun h => hblank (Or.inl h)
    have hb : ¬ jsTrim body = "" := fun h => hblank (Or.inr h)
    cases r with
    | false =>
      rw [if_pos (Or.inr (Or.inr hr)), if_neg hblank]
      simp only [handleCreate, if_neg hblank, hr]
    | true =>
      have hc : ¬ (jsTrim title = "" ∨ jsTrim body = ""
          ∨ canCreate (some author) tCheck ⟨us, cu, .data P⟩ = some false) := by
        rw [hr]
        simp [ht, hb]
      rw [if_neg hc]
      simp only [handleCreate, if_neg hblank, hr, getBlogs, saveBlogs]

/-! ## Routing: proofs -/

theorem objGet_objSet_same {α : Type} (o : List (String × α)) (k : String) (v : α)
    (hk : k ≠ "__proto__") : objGet (objSet o k v) k = some v := by
  unfold objSet
  by_cases hany : o.any (fun e => e.1 = k) = true
  · rw [if_pos hany]
    unfold objGet
    induction o with
    | nil => simp at hany
    | cons e rest ih =>
      by_cases he : e.1 = k
      · simp [he]
      · have hrest : rest.any (fun e => e.1 = k) = true := by
          simpa [he] using hany
        simp only [List.map_cons, he, if_false, List.find?_cons, decide_False]
        exact ih hrest
  · rw [if_neg hany, if_neg hk]
    have hnone : o.find? (fun e => decide (e.1 = k)) = none := by
      rw [List.find?_eq_none]
      intro e he
      simp only [Bool.not_eq_true, List.any_eq_false] at hany
      simpa using hany e he
    simp [objGet, List.find?_append, hnone]

theorem objGet_objSet_other {α : Type} (o : List (String × α)) (k k2 : String) (v : α)
    (hk : k2 ≠ k) : objGet (objSet o k v) k2 = objGet o k2 := by
  unfold objSet
  have hk' : ¬ k = k2 := fun h => hk h.symm
  by_cases hany : o.any (fun e => e.1 = k) = true
  · rw [if_pos hany]
    unfold objGet
    clear hany
    induction o with
    | nil => simp
    | cons e rest ih =>
      by_cases he : e.1 = k
      · have he2 : ¬ e.1 = k2 := by rw [he]; exact hk'
        simp only [List.map_cons, he, if_true, List.find?_cons, hk', decide_False, he2]
        exact ih
      · by_cases he2 : e.1 = k2
        · rw [List.map_cons, if_neg he, List.find?_cons, List.find?_cons]
          simp [he2]
        · simp only [List.map_cons, he, if_false, List.find?_cons, he2, decide_False]
          exact ih
  · rw [if_neg hany]
    split
    · rfl
    · simp [objGet, List.find?_append, hk']

theorem routeLoop_isSome (zs : List (String × String)) :
    ∀ params, (routeLoop zs params).isSome = true
      ↔ ∀ pc ∈ zs, isParam pc.1 = false → pc.1 = pc.2 := by
  induction zs with
  | nil => intro params; simp [routeLoop]
  | cons z rest ih =>
    intro params
    obtain ⟨p, c⟩ := z
    unfold routeLoop
    by_cases hp : isParam p = true
    · simp [hp, ih]
    · by_cases hpc : p = c
      · subst hpc
        simp [hp, ih]
      · simp [hp, hpc]

theorem routeLoop_keeps (zs : List (String × String)) (k : String) :
    ∀ params0 params, routeLoop zs params0 = some params →
      (∀ pc ∈ zs, isParam pc.1 = true → paramName pc.1 ≠ k) →
      objGet params k = objGet params0 k := by
  induction zs with
  | nil =>
    intro params0 params h _
    simp only [routeLoop, Option.some.injEq] at h
    rw [h]
  | cons z rest ih =>
    intro params0 params h hne
    obtain ⟨p, c⟩ := z
    unfold routeLoop at h
    have hrest : ∀ pc ∈ rest, isParam pc.1 = true → paramName pc.1 ≠ k :=
      fun pc hpc => hne pc (List.mem_cons_of_mem _ hpc)
    by_cases hp : isParam p = true
    · rw [if_pos hp] at h
      rw [ih _ _ h hrest]
      exact objGet_objSet_other _ _ _ _ (fun hk => hne (p, c) (List.mem_cons_self _ _) hp hk.symm)
    · rw [if_neg hp] at h
      by_cases hpc : p = c
      · simp only [hpc, ne_eq, not_true_eq_false, if_false] at h
        exact ih _ _ h hrest
      · simp [hpc] at h

theorem routeLoop_binding (zs : List (String × String)) :
    ∀ (params0 params : List (String × String)) (i : Nat) (p c : String),
      routeLoop zs params0 = some params → zs[i]? = some (p, c) → isParam p = true →
      paramName p ≠ "__proto__" →
      (∀ j q d, i < j → zs[j]? = some (q, d) → isParam q = true → paramName q ≠ paramName p) →
      objGet params (paramName p) = some c := by
  induction zs with
  | nil => intro params0 params i p c _ hi; simp at hi
  | cons z rest ih =>
    intro params0 params i p c h hi hp hproto hlater
    obtain ⟨p0, c0⟩ := z
    unfold routeLoop at h
    cases i with
    | zero =>
      simp only [List.getElem?_cons_zero, Option.some.injEq, Prod.mk.injEq] at hi
      obtain ⟨rfl, rfl⟩ := hi
      rw [if_pos hp] at h
      have hkeep := routeLoop_keeps rest (paramName p0) _ _ h (by
        intro pc hpc hparam
        obtain ⟨n, hn⟩ := List.mem_iff_getElem?.mp hpc
        exact hlater (n + 1) pc.1 pc.2 (Nat.succ_pos n) (by simpa using hn) hparam)
      rw [hkeep, objGet_objSet_same _ _ _ hproto]
    | succ n =>
      have hi' : rest[n]? = some (p, c) := by simpa using hi
      have hlater' : ∀ j q d, n < j → rest[j]? = some (q, d) → isParam q = true →
          paramName q ≠ paramName p :=
        fun j q d hj hq hqp => hlater (j + 1) q d (by omega) (by simpa using hq) hqp
      by_cases hp0 : isParam p0 = true
      · rw [if_pos hp0] at h
        exact ih _ _ n p c h hi' hp hproto hlater'
      · rw [if_neg hp0] at h
        by_cases hpc : p0 = c0
        · simp only [hpc, ne_eq, not_true_eq_false, if_false] at h
          exact ih _ _ n p c h hi' hp hproto hlater'
        · simp [hpc] at h

theorem splitChars_mem (sep : Char) (cs : List Char) :
    ∀ seg ∈ splitChars sep cs, ∀ c ∈ seg, c ∈ cs := by
  induction cs with
  | nil => intro seg hseg c hc; simp [splitChars] at hseg; subst hseg; simp at hc
  | cons c0 rest ih =>
    intro seg hseg c hc
    unfold splitChars at hseg
    by_cases h0 : c0 = sep
    · rw [if_pos h0] at hseg
      rcases List.mem_cons.mp hseg with h | h
      · subst h; simp at hc
      · exact List.mem_cons_of_mem _ (ih seg h c hc)
    · rw [if_neg h0] at hseg
      cases hsp : splitChars sep rest with
      | nil =>
        rw [hsp] at hseg
        simp only [List.mem_singleton] at hseg
        subst hseg
        simp only [List.mem_singleton] at hc
        rw [hc]; exact List.mem_cons_self _ _
      | cons s ss =>
        rw [hsp] at hseg ih
        rcases List.mem_cons.mp hseg with h | h
        · subst h
          rcases List.mem_cons.mp hc with hc0 | hcs
          · rw [hc0]; exact List.mem_cons_self _ _
          · exact List.mem_cons_of_mem _ (ih s (List.mem_cons_self _ _) c hcs)
        · exact List.mem_cons_of_mem _ (ih seg (List.mem_cons_of_mem _ h) c hc)

theorem colon_mem_of_param_segment (path : String)
    (h : ∃ seg ∈ segments path, isParam seg = true) : ':' ∈ path.data := by
  obtain ⟨seg, hseg, hp⟩ := h
  unfold segments at hseg
  obtain ⟨cs, hcs, rfl⟩ := List.mem_map.mp hseg
  apply splitChars_mem '/' path.data cs hcs
  simp only [isParam, decide_eq_true_eq] at hp
  cases cs with
  | nil => simp at hp
  | cons a as =>
    simp only [List.head?_cons, Option.some.injEq] at hp
    rw [hp]; exact List.mem_cons_self _ _

theorem zip_forall_iff (ps cs : List String) (Q : String → String → Prop) :
    (∀ pc ∈ ps.zip cs, Q pc.1 pc.2) ↔ ∀ (i : Nat) (p c : String), ps[i]? = some p → cs[i]? = some c → Q p c := by
  constructor
  · intro h i p c hp hc
    have : (ps.zip cs)[i]? = some (p, c) := List.getElem?_zip_eq_some.mpr ⟨hp, hc⟩
    exact h (p, c) (List.mem_iff_getElem?.mpr ⟨i, this⟩)
  · intro h pc hpc
    obtain ⟨i, hi⟩ := List.mem_iff_getElem?.mp hpc
    obtain ⟨h1, h2⟩ := List.getElem?_zip_eq_some.mp hi
    exact h i pc.1 pc.2 h1 h2

/-- C5, as amended. For a pattern with a parameter segment, `Route` matches exactly when the
pattern and the cleaned path (the current path without its first `#`, or `/` when that is empty)
have the same number of segments and every non-parameter segment of the pattern equals the path
segment at the same position; on a match a parameter name other than `__proto__` is bound to
the path segment at the last position where that name occurs. `/profile/:username` matches
`/profile/alice` with `username = "alice"` and does not match `/profile/alice/x`. -/
theorem Route_param_spec (path : String) ( exact : Bool) (currentPath : String)
    (hparam : ∃ seg ∈ segments path, isParam seg = true) :
    ((Route path exact currentPath).isSome = true ↔
        (segments path).length = (segments (cleanPath currentPath)).length
        ∧ ∀ (i : Nat) (p c : String), (segments path)[i]? = some p → (segments (cleanPath currentPath))[i]? = some c →
            isParam p = false → p = c)
    ∧ (∀ params, Route path exact currentPath = some params →
        ∀ (i : Nat) (p c : String), (segments path)[i]? = some p → (segments (cleanPath currentPath))[i]? = some c →
          isParam p = true → paramName p ≠ "__proto__" →
          (∀ (j : Nat) (q : String), i < j → (segments path)[j]? = some q → isParam q = true →
            paramName q ≠ paramName p) →
          objGet params (paramName p) = some c)
    ∧ Route "/profile/:username" exact "/profile/alice" = some [("username", "alice")]
    ∧ Route "/profile/:username" exact "#/profile/alice" = some [("username", "alice")]
    ∧ Route "/profile/:username" exact "/profile/alice/x" = none := by
  have hcolon := colon_mem_of_param_segment path hparam
  refine ⟨?_, ?_, ?_, ?_, ?_⟩
  · unfold Route
    simp only [hcolon, if_true]
    by_cases hlen : (segments path).length = (segments (cleanPath currentPath)).length
    · simp only [hlen, ne_eq, not_true_eq_false, if_false, true_and]
      exact (routeLoop_isSome _ _).trans
        (zip_forall_iff _ _ (fun p c => isParam p = false → p = c))
    · simp [hlen]
  · intro params hroute i p c hp hc hpp hproto hlater
    unfold Route at hroute
    simp only [hcolon, if_true] at hroute
    by_cases hlen : (segments path).length = (segments (cleanPath currentPath)).length
    · simp only [hlen, ne_eq, not_true_eq_false, if_false] at hroute
      refine routeLoop_binding _ _ _ i p c hroute
        (List.getElem?_zip_eq_some.mpr ⟨hp, hc⟩) hpp hproto ?_
      intro j q d hj hq hqp
      exact hlater j q hj (List.getElem?_zip_eq_some.mp hq).1 hqp
    · simp [hlen] at hroute
  · cases exact <;> decide
  · cases exact <;> decide
  · cases exact <;> decide

/-- C5, the claim as stated fails, in two ways. In the pattern `/:a/:a` the name `a` stands at
positions 1 and 2; against `/x/y` the route matches and binds `a` to `y`, so the parameter
segment at position 1 is not bound to the path segment `x` at its position. And the pattern
`/:__proto__` matches `/x` with no binding at all: the name `__proto__`, which stands at
position 1 only, is not bound to `x` (the assignment `params[name] = value` runs the inherited
setter and stores nothing). -/
theorem Route_param_binding_fails :
    ((∃ seg ∈ segments "/:a/:a", isParam seg = true)
      ∧ segments "/:a/:a" = ["", ":a", ":a"]
      ∧ segments (cleanPath "/x/y") = ["", "x", "y"]
      ∧ Route "/:a/:a" false "/x/y" = some [("a", "y")]
      ∧ objGet [("a", "y")] (paramName ":a") ≠ some "x")
    ∧ ((∃ seg ∈ segments "/:__proto__", isParam seg = true)
      ∧ segments "/:__proto__" = ["", ":__proto__"]
      ∧ segments (cleanPath "/x") = ["", "x"]
      ∧ paramName ":__proto__" = "__proto__"
      ∧ Route "/:__proto__" false "/x" = some []
      ∧ objGet ([] : List (String × String)) (paramName ":__proto__") ≠ some "x") := by
  decide

/-- The amended C5 on the pattern `/profile/:username` and the path `/profile/alice`. -/
theorem Route_param_spec_witness :
    (∃ seg ∈ segments "/profile/:username", isParam seg = true)
    ∧ (((Route "/profile/:username" false "/profile/alice").isSome = true ↔
        (segments "/profile/:username").length = (segments (cleanPath "/profile/alice")).length
        ∧ ∀ (i : Nat) (p c : String), (segments "/profile/:username")[i]? = some p →
            (segments (cleanPath "/profile/alice"))[i]? = some c →
            isParam p = false → p = c)
      ∧ (∀ params, Route "/profile/:username" false "/profile/alice" = some params →
        ∀ (i : Nat) (p c : String), (segments "/profile/:username")[i]? = some p →
          (segments (cleanPath "/profile/alice"))[i]? = some c →
          isParam p = true → paramName p ≠ "__proto__" →
          (∀ (j : Nat) (q : String), i < j → (segments "/profile/:username")[j]? = some q →
            isParam q = true → paramName q ≠ paramName p) →
          objGet params (paramName p) = some c)
      ∧ Route "/profile/:username" false "/profile/alice" = some [("username", "alice")]
      ∧ Route "/profile/:username" false "#/profile/alice" = some [("username", "alice")]
      ∧ Route "/profile/:username" false "/profile/alice/x" = none) :=
  ⟨by decide, Route_param_spec "/profile/:username" false "/profile/alice" (by decide)⟩

/-- C6, as amended. For a pattern that contains no `:` at all, an exact route matches exactly
when the cleaned path equals the pattern and a non-exact route exactly when the cleaned path
starts with the pattern; no parameter is bound. The pattern `/` registered as exact does not
match `/blogs`. -/
theorem Route_plain_spec (path currentPath : String) (hplain : ':' ∉ path.data) :
    ((Route path true currentPath).isSome = true ↔ cleanPath currentPath = path)
    ∧ ((Route path false currentPath).isSome = true ↔ path.data <+: (cleanPath currentPath).data)
    ∧ (∀ ( exact : Bool) params, Route path exact currentPath = some params → params = [])
    ∧ Route "/" true "/blogs" = none
    ∧ Route "/" true "#/" = some []
    ∧ Route "/blogs" false "#/blogs" = some [] := by
  refine ⟨?_, ?_, ?_, by decide, by decide, by decide⟩
  · unfold Route
    simp only [hplain, if_false, if_true]
    by_cases h : cleanPath currentPath = path
    · simp [h]
    · simp [h]
  · unfold Route
    simp only [hplain, if_false, Bool.false_eq_true]
    by_cases h : path.data.isPrefixOf (cleanPath currentPath).data = true
    · simp only [h, if_true, Option.isSome_some, true_iff]
      exact List.isPrefixOf_iff_prefix.mp h
    · simp only [h, if_false, Option.isSome_none, Bool.false_eq_true, false_iff]
      exact fun hp => h (List.isPrefixOf_iff_prefix.mpr hp)
  · intro ex params h
    unfold Route at h
    simp only [hplain, if_false] at h
    cases ex
    · by_cases hp : path.data.isPrefixOf (cleanPath currentPath).data = true
      · simp only [Bool.false_eq_true, if_false, hp, if_true, Option.some.injEq] at h
        exact h.symm
      · simp [hp] at h
    · by_cases hp : cleanPath currentPath = path
      · simp only [if_true, hp, Option.some.injEq] at h
        exact h.symm
      · simp [hp] at h

/-- The amended C6 on the pattern `/blogs` and the path `#/blogs/today`. -/
theorem Route_plain_spec_witness :
    ':' ∉ "/blogs".data
    ∧ (((Route "/blogs" true "#/blogs/today").isSome = true ↔ cleanPath "#/blogs/today" = "/blogs")
      ∧ ((Route "/blogs" false "#/blogs/today").isSome = true
          ↔ "/blogs".data <+: (cleanPath "#/blogs/today").data)
      ∧ (∀ ( exact : Bool) params, Route "/blogs" exact "#/blogs/today" = some params → params = [])
      ∧ Route "/" true "/blogs" = none
      ∧ Route "/" true "#/" = some []
      ∧ Route "/blogs" false "#/blogs" = some []) :=
  ⟨by decide, Route_plain_spec "/blogs" "#/blogs/today" (by decide)⟩

/-- C6, the claim as stated fails: no segment of the pattern `/a:b` begins with `:` and the
route is not exact, the path `/a:b/c` starts with the pattern, and yet `Route` does not match
(the pattern contains a `:`, so the segment counts 2 and 3 are compared). -/
theorem Route_colon_inside_segment :
    (∀ seg ∈ segments "/a:b", isParam seg = false)
    ∧ "/a:b".data <+: (cleanPath "/a:b/c").data
    ∧ segments "/a:b" = ["", "a:b"]
    ∧ segments (cleanPath "/a:b/c") = ["", "a:b", "c"]
    ∧ Route "/a:b" false "/a:b/c" = none := by
  decide

/-! ## Route guard: proofs -/

/-- C7. `ProtectedRoute` returns the guarded content exactly when a session exists and either
no role is required (`requiredRole` is absent or the empty string, the two falsy values) or the
session's role is the required one, and then it does not navigate; without a session it returns
nothing and navigates to `/login`; with a session whose role differs from a required role it
returns nothing and navigates to `/`. -/
theorem ProtectedRoute_spec (currentUser : Option User) (requiredRole : Option String) :
    ((ProtectedRoute currentUser requiredRole).rendered = true
        ↔ ∃ u, currentUser = some u ∧ (truthy requiredRole = false ∨ some u.role = requiredRole))
    ∧ ((ProtectedRoute currentUser requiredRole).rendered = true →
        (ProtectedRoute currentUser requiredRole).navigate = none)
    ∧ (currentUser = none → ProtectedRoute currentUser requiredRole = ⟨false, some "/login"⟩)
    ∧ (∀ u, currentUser = some u → truthy requiredRole = true → some u.role ≠ requiredRole →
        ProtectedRoute currentUser requiredRole = ⟨false, some "/"⟩) := by
  cases currentUser with
  | none => simp [ProtectedRoute]
  | some cu =>
    by_cases h : truthy requiredRole = true ∧ some cu.role ≠ requiredRole
    · have hr : ProtectedRoute (some cu) requiredRole = ⟨false, some "/"⟩ := by
        simp only [ProtectedRoute, if_pos h]
      rw [hr]
      refine ⟨?_, by simp, by simp, fun _ _ _ _ => rfl⟩
      simp only [Bool.false_eq_true, Option.some.injEq, exists_eq_left', false_iff, not_or]
      exact ⟨by simp [h.1], h.2⟩
    · have hr : ProtectedRoute (some cu) requiredRole = ⟨true, none⟩ := by
        simp only [ProtectedRoute, if_neg h]
      rw [hr]
      refine ⟨?_, by simp, by simp, ?_⟩
      · simp only [Option.some.injEq, exists_eq_left', true_iff]
        by_cases ht : truthy requiredRole = true
        · right
          by_contra hne
          exact h ⟨ht, hne⟩
        · left
          simpa using ht
      · intro u hu ht hne
        simp only [Option.some.injEq] at hu
        subst hu
        exact absurd ⟨ht, hne⟩ h

/-! ## Login: proofs -/

/-- C8. On every stored users collection, `submit` finds a record exactly when some stored user
has that username and that password; the record found is the first such user, it becomes the
session (the state of `App` and the `currentUser` document) and the page navigates to `/`;
otherwise state and medium are left as they were and the one message
`Invalid username or password` is shown, whichever field was wrong. On a fresh medium the
seeded administrator can log in. -/
theorem submit_spec (now : Int) (username password : String) (session : Option User)
    (cu : Slot User) (bl : Slot (List BlogPost)) (users : List User) :
    ((submit now username password ⟨session, ⟨.data users, cu, bl⟩⟩).found.isSome = true
        ↔ ∃ u ∈ users, u.username = username ∧ u.password = password)
    ∧ (∀ u, (submit now username password ⟨session, ⟨.data users, cu, bl⟩⟩).found = some u →
        u ∈ users ∧ u.username = username ∧ u.password = password
        ∧ users.find? (fun x => x.username = username ∧ x.password = password) = some u
        ∧ submit now username password ⟨session, ⟨.data users, cu, bl⟩⟩
            = ⟨⟨some u, ⟨.data users, .data u, bl⟩⟩, some u, none, some "/"⟩)
    ∧ ((submit now username password ⟨session, ⟨.data users, cu, bl⟩⟩).found = none →
        submit now username password ⟨session, ⟨.data users, cu, bl⟩⟩
          = ⟨⟨session, ⟨.data users, cu, bl⟩⟩, none, some "Invalid username or password", none⟩)
    ∧ (submit now "gyatt123" "gyatt123" ⟨none, ⟨.empty, .empty, bl⟩⟩).app.currentUser
        = (seedUsers now).head?
    ∧ (submit now "Gyatt123" "gyatt123" ⟨none, ⟨.empty, .empty, bl⟩⟩).found = none
    ∧ (submit now "gyatt123" "Gyatt123" ⟨none, ⟨.empty, .empty, bl⟩⟩).err
        = (submit now "Gyatt123" "gyatt123" ⟨none, ⟨.empty, .empty, bl⟩⟩).err := by
  refine ⟨?_, ?_, ?_, by simp [submit, getUsers, seedUsers, handleLogin],
    by simp [submit, getUsers, seedUsers], by simp [submit, getUsers, seedUsers]⟩
  · cases hf : users.find? (fun x => x.username = username ∧ x.password = password) with
    | none =>
      have hno := List.find?_eq_none.mp hf
      simp only [submit, getUsers, hf, Option.isSome_none, Bool.false_eq_true, false_iff]
      rintro ⟨u, hu, h1, h2⟩
      exact hno u hu (by simp [h1, h2])
    | some f =>
      have hp := List.find?_some hf
      have hm := List.mem_of_find?_eq_some hf
      simp only [submit, getUsers, hf, Option.isSome_some, true_iff]
      simp only [decide_eq_true_eq] at hp
      exact ⟨f, hm, hp.1, hp.2⟩
  · intro u hu
    cases hf : users.find? (fun x => x.username = username ∧ x.password = password) with
    | none =>
      simp only [submit, getUsers, hf] at hu
      exact absurd hu (by simp)
    | some f =>
      have hp := List.find?_some hf
      have hm := List.mem_of_find?_eq_some hf
      simp only [decide_eq_true_eq] at hp
      simp only [submit, getUsers, hf, Option.some.injEq] at hu
      subst hu
      refine ⟨hm, hp.1, hp.2, rfl, ?_⟩
      simp only [submit, getUsers, hf, handleLogin, setCurrentUser]
  · intro hnone
    cases hf : users.find? (fun x => x.username = username ∧ x.password = password) with
    | none => simp only [submit, getUsers, hf]
    | some f =>
      simp only [submit, getUsers, hf] at hnone
      exact absurd hnone (by simp)

/-! ## Users collection: proofs -/

/-- C9. On a medium with no value under the users key, `getUsers` returns exactly one record,
with username `gyatt123`, password `gyatt123` and role `admin`, and leaves that one-element
sequence stored under the users key; the next `getUsers`, at any later time, returns the same
sequence and leaves the medium as it is. -/
theorem getUsers_seed (now later : Int) (cu : Slot User) (bl : Slot (List BlogPost)) :
    (∃ u : User, (getUsers now ⟨.empty, cu, bl⟩).1 = [u]
      ∧ u.username = "gyatt123" ∧ u.password = "gyatt123" ∧ u.role = "admin")
    ∧ (getUsers now ⟨.empty, cu, bl⟩).2 = ⟨.data (getUsers now ⟨.empty, cu, bl⟩).1, cu, bl⟩
    ∧ getUsers later (getUsers now ⟨.empty, cu, bl⟩).2
        = ((getUsers now ⟨.empty, cu, bl⟩).1, (getUsers now ⟨.empty, cu, bl⟩).2) := by
  refine ⟨⟨_, rfl, rfl, rfl, rfl⟩, rfl, rfl⟩

theorem setCurrentUser_users (u : Option User) (st : Storage) :
    (setCurrentUser u st).users = st.users := by
  cases u <;> rfl

theorem getUsers_of_data (t : Int) (st : Storage) (us : List User) (h : st.users = .data us) :
    getUsers t st = (us, st) := by
  simp [getUsers, h]

theorem usersNonEmpty_getUsers (now : Int) (st : Storage)
    (hst : st.users = .empty ∨ UsersNonEmpty st) : UsersNonEmpty (getUsers now st).2 := by
  rcases hst with h | ⟨us, hne, h⟩
  · exact ⟨seedUsers now, by simp [seedUsers], by simp [getUsers, h]⟩
  · exact ⟨us, hne, by simp [getUsers, h]⟩

theorem usersNonEmpty_run (t : Int) (op : UserOp) (st : Storage)
    (hst : UsersNonEmpty st) (hop : op.removes = false) : UsersNonEmpty (op.run t st) := by
  obtain ⟨us, hne, h⟩ := hst
  cases op with
  | add tJoin newUser =>
    simp only [UserOp.run, addUser, getUsers, h]
    split
    · exact ⟨us, hne, h⟩
    · split
      · exact ⟨us, hne, h⟩
      · exact ⟨_, by simp, rfl⟩
  | edit editing =>
    simp only [UserOp.run, saveEdit, getUsers, h, saveUsers]
    exact ⟨_, by simpa using hne, rfl⟩
  | delete username confirmed =>
    simp only [UserOp.removes] at hop
    subst hop
    simp only [UserOp.run, handleDelete]
    exact ⟨us, hne, by simpa using h⟩
  | profile currentUser username form =>
    simp only [UserOp.run, profileSave, getUsers_of_data t st us h, saveUsers]
    split
    · rw [UsersNonEmpty, setCurrentUser_users]
      exact ⟨_, by simpa using hne, rfl⟩
    · exact ⟨_, by simpa using hne, rfl⟩

theorem usersNonEmpty_runOps (ops : List (Int × UserOp)) :
    ∀ st : Storage, UsersNonEmpty st → (∀ op ∈ ops, op.2.removes = false) →
      UsersNonEmpty (runOps ops st) := by
  induction ops with
  | nil => intro st hst _; exact hst
  | cons op rest ih =>
    intro st hst hops
    simp only [runOps, List.foldl_cons]
    exact ih _ (usersNonEmpty_run op.1 op.2 st hst (hops op (List.mem_cons_self _ _)))
      (fun o ho => hops o (List.mem_cons_of_mem _ ho))

/-- C10, as amended. Starting from a medium whose users key is empty or holds at least one
user, once `getUsers` has been called every later `getUsers` returns at least one user after
any sequence of `addUser`, `saveEdit`, profile save and declined `handleDelete` operations;
a confirmed `handleDelete` stores exactly the users with another username. -/
theorem users_stay_nonempty (now later : Int) (st : Storage) (ops : List (Int × UserOp))
    (hst : st.users = .empty ∨ UsersNonEmpty st)
    (hops : ∀ op ∈ ops, op.2.removes = false) :
    (getUsers later (runOps ops (getUsers now st).2)).1 ≠ []
    ∧ (∀ (t : Int) (name : String) (us : List User) (cu : Slot User) (bl : Slot (List BlogPost)),
        (getUsers later (handleDelete t name true ⟨.data us, cu, bl⟩)).1
          = us.filter (fun u => u.username ≠ name)) := by
  constructor
  · obtain ⟨us, hne, h⟩ :=
      usersNonEmpty_runOps ops _ (usersNonEmpty_getUsers now st hst) hops
    rw [getUsers_of_data later _ us h]
    exact hne
  · intro t name us cu bl
    simp [handleDelete, getUsers, saveUsers]

/-- The amended C10 on a fresh medium: an added user, an edit of the administrator, a profile
save and a declined delete. -/
theorem users_stay_nonempty_witness :
    (((⟨.empty, .empty, .empty⟩ : Storage).users = .empty
        ∨ UsersNonEmpty ⟨.empty, .empty, .empty⟩)
      ∧ ∀ op ∈ [((1 : Int), UserOp.add 1 sampleNewUser),
                (2, UserOp.edit { username := "gyatt123", password := "new", email := "e",
                                  fullname := "G", classLevel := 12, bio := "", pfp := "",
                                  joinedAt := 0, role := "admin" }),
                (3, UserOp.profile { username := "bob", password := "pw", email := "e",
                                     fullname := "Bob", classLevel := 9, bio := "", pfp := "",
                                     joinedAt := 1, role := "user" } "bob" ⟨"Bobby", "hi", 10, ""⟩),
                (4, UserOp.delete "gyatt123" false)],
          op.2.removes = false)
    ∧ ((getUsers 5 (runOps
          [((1 : Int), UserOp.add 1 sampleNewUser),
           (2, UserOp.edit { username := "gyatt123", password := "new", email := "e",
                             fullname := "G", classLevel := 12, bio := "", pfp := "",
                             joinedAt := 0, role := "admin" }),
           (3, UserOp.profile { username := "bob", password := "pw", email := "e",
                                fullname := "Bob", classLevel := 9, bio := "", pfp := "",
                                joinedAt := 1, role := "user" } "bob" ⟨"Bobby", "hi", 10, ""⟩),
           (4, UserOp.delete "gyatt123" false)]
          (getUsers 0 ⟨.empty, .empty, .empty⟩).2)).1 ≠ []
      ∧ (∀ (t : Int) (name : String) (us : List User) (cu : Slot User) (bl : Slot (List BlogPost)),
          (getUsers 5 (handleDelete t name true ⟨.data us, cu, bl⟩)).1
            = us.filter (fun u => u.username ≠ name))) :=
  ⟨⟨Or.inl rfl, by decide⟩,
   users_stay_nonempty 0 5 ⟨.empty, .empty, .empty⟩ _ (Or.inl rfl) (by decide)⟩

/-- C10, the claim as stated fails: on a fresh medium `getUsers` seeds the administrator, a
confirmed `handleDelete` of `gyatt123` stores the empty collection, and the next `getUsers`
returns no user (the key is present, so nothing is seeded again). -/
theorem users_empty_after_delete :
    (getUsers 0 ⟨.empty, .empty, .empty⟩).1 = seedUsers 0
    ∧ (runOps [(1, UserOp.delete "gyatt123" true)] (getUsers 0 ⟨.empty, .empty, .empty⟩).2).users
        = .data []
    ∧ (getUsers 2 (runOps [(1, UserOp.delete "gyatt123" true)]
          (getUsers 0 ⟨.empty, .empty, .empty⟩).2)).1 = [] :=
  ⟨rfl, by decide, by decide⟩

/-! ## Aura is monotone: proofs -/

theorem auraOfCounts_eq (up down : Nat) :
    auraOfCounts up down = auraOfDelta ((up : Int) - (down : Int)) := rfl

theorem ceilSqrtHundredth_mono {m n : Nat} (h : m ≤ n) :
    ceilSqrtHundredth m ≤ ceilSqrtHundredth n := by
  rw [ceilSqrtHundredth_le_iff]
  exact le_trans h (ceilSqrtHundredth_spec n).1

theorem auraOfDelta_of_pos {d : Int} (h : 0 < d) :
    auraOfDelta d = (ceilSqrtHundredth d.natAbs : Int) := by
  unfold auraOfDelta
  rw [if_neg (by omega), Int.sign_eq_one_of_pos h, one_mul]

theorem auraOfDelta_of_neg {d : Int} (h : d < 0) :
    auraOfDelta d = -(ceilSqrtHundredth d.natAbs : Int) := by
  unfold auraOfDelta
  rw [if_neg (by omega), Int.sign_eq_neg_one_of_neg h]
  ring

theorem auraOfDelta_mono {d1 d2 : Int} (h : d1 ≤ d2) : auraOfDelta d1 ≤ auraOfDelta d2 := by
  rcases lt_trichotomy d1 0 with h1 | h1 | h1
  · rw [auraOfDelta_of_neg h1]
    rcases lt_trichotomy d2 0 with h2 | h2 | h2
    · rw [auraOfDelta_of_neg h2]
      have hm : ceilSqrtHundredth d2.natAbs ≤ ceilSqrtHundredth d1.natAbs :=
        ceilSqrtHundredth_mono (by omega)
      omega
    · subst h2
      simp only [auraOfDelta, if_true]
      omega
    · rw [auraOfDelta_of_pos h2]
      omega
  · subst h1
    rcases lt_or_eq_of_le h with h2 | h2
    · rw [auraOfDelta_of_pos h2]
      simp only [auraOfDelta, if_true]
      omega
    · rw [← h2]
  · have h2 : 0 < d2 := by omega
    rw [auraOfDelta_of_pos h1, auraOfDelta_of_pos h2]
    have hm : ceilSqrtHundredth d1.natAbs ≤ ceilSqrtHundredth d2.natAbs :=
      ceilSqrtHundredth_mono (by omega)
    omega

/-- C14. Aura is a monotone function of the net vote delta: for `d1 ≤ d2` the aura computed
from `d1` is at most the aura computed from `d2`; so on stored collections the user with the
smaller delta has the smaller or equal aura, an added upvote never lowers the aura and an added
downvote never raises it. -/
theorem aura_monotone (d1 d2 : Int) (h : d1 ≤ d2) :
    auraOfDelta d1 ≤ auraOfDelta d2
    ∧ (∀ (us : Slot (List User)) (cu : Slot User) (P1 P2 : List BlogPost) (u1 u2 : String),
        specDelta P1 u1 = d1 → specDelta P2 u2 = d2 →
        ∃ a1 a2 : Int, computeAuraForUser ⟨us, cu, .data P1⟩ u1 = some a1
          ∧ computeAuraForUser ⟨us, cu, .data P2⟩ u2 = some a2 ∧ a1 ≤ a2)
    ∧ (∀ up down : Nat, auraOfCounts up down ≤ auraOfCounts (up + 1) down
        ∧ auraOfCounts up (down + 1) ≤ auraOfCounts up down) := by
  refine ⟨auraOfDelta_mono h, ?_, ?_⟩
  · intro us cu P1 P2 u1 u2 h1 h2
    refine ⟨_, _, computeAuraForUser_data us cu P1 u1, computeAuraForUser_data us cu P2 u2, ?_⟩
    have := auraOfDelta_mono h
    rw [← h1, ← h2] at this
    exact this
  · intro up down
    rw [auraOfCounts_eq, auraOfCounts_eq, auraOfCounts_eq]
    exact ⟨auraOfDelta_mono (by push_cast; omega), auraOfDelta_mono (by push_cast; omega)⟩

/-- Monotonicity across the step at delta 100: aura 1 at 100 and aura 2 at 101. -/
theorem aura_monotone_witness :
    (100 : Int) ≤ 101
    ∧ (auraOfDelta 100 ≤ auraOfDelta 101
      ∧ (∀ (us : Slot (List User)) (cu : Slot User) (P1 P2 : List BlogPost) (u1 u2 : String),
          specDelta P1 u1 = 100 → specDelta P2 u2 = 101 →
          ∃ a1 a2 : Int, computeAuraForUser ⟨us, cu, .data P1⟩ u1 = some a1
            ∧ computeAuraForUser ⟨us, cu, .data P2⟩ u2 = some a2 ∧ a1 ≤ a2)
      ∧ (∀ up down : Nat, auraOfCounts up down ≤ auraOfCounts (up + 1) down
          ∧ auraOfCounts up (down + 1) ≤ auraOfCounts up down)) :=
  ⟨by decide, aura_monotone 100 101 (by decide)⟩

/-! ## Loading posts: proofs -/

/-- C11, the code at the failing input: with a string under the blogs key that `JSON.parse`
rejects, `getBlogs` raises (the result `none`) instead of returning the empty sequence, while
`getUsers` on such a string under the users key catches the exception and returns the empty
sequence; on an empty key and on serialised data `getBlogs` does return a sequence. -/
theorem getBlogs_corrupt_raises (us : Slot (List User)) (cu : Slot User) :
    getBlogs ⟨us, cu, .corrupt⟩ = none
    ∧ getBlogs ⟨us, cu, .corrupt⟩ ≠ some []
    ∧ (∀ (t : Int) (bl : Slot (List BlogPost)), (getUsers t ⟨.corrupt, cu, bl⟩).1 = [])
    ∧ getBlogs ⟨us, cu, .empty⟩ = some []
    ∧ (∀ P : List BlogPost, getBlogs ⟨us, cu, .data P⟩ = some P)
    ∧ (∀ username : String, computeAuraForUser ⟨us, cu, .corrupt⟩ username = none) := by
  refine ⟨rfl, by simp [getBlogs], fun _ _ => rfl, rfl, fun _ => rfl, fun _ => rfl⟩

/-! ## Voting changes one ballot only: proofs -/

theorem objGet_objDelete_other {α : Type} (o : List (String × α)) (k k2 : String)
    (hk : k2 ≠ k) : objGet (objDelete o k) k2 = objGet o k2 := by
  unfold objGet objDelete
  induction o with
  | nil => simp
  | cons e rest ih =>
    by_cases he : e.1 = k
    · have he2 : ¬ e.1 = k2 := by rw [he]; exact fun h => hk h.symm
      have h1 : (e :: rest).filter (fun e => decide (e.1 ≠ k))
          = rest.filter (fun e => decide (e.1 ≠ k)) := by
        simp [List.filter_cons, he]
      have h2 : (e :: rest).find? (fun e => decide (e.1 = k2))
          = rest.find? (fun e => decide (e.1 = k2)) := by
        simp [List.find?_cons, he2]
      rw [h1, h2]
      exact ih
    · have h1 : (e :: rest).filter (fun e => decide (e.1 ≠ k))
          = e :: rest.filter (fun e => decide (e.1 ≠ k)) := by
        simp [List.filter_cons, he]
      rw [h1]
      by_cases he2 : e.1 = k2
      · simp [List.find?_cons, he2]
      · have h2 : (e :: rest).find? (fun e => decide (e.1 = k2))
            = rest.find? (fun e => decide (e.1 = k2)) := by
          simp [List.find?_cons, he2]
        have h3 : (e :: rest.filter (fun e => decide (e.1 ≠ k))).find? (fun e => decide (e.1 = k2))
            = (rest.filter (fun e => decide (e.1 ≠ k))).find? (fun e => decide (e.1 = k2)) := by
          simp [List.find?_cons, he2]
        rw [h2, h3]
        exact ih

theorem filter_key_objDelete_other {α : Type} (o : List (String × α)) (k k2 : String)
    (hk : k2 ≠ k) :
    (objDelete o k).filter (fun e => e.1 = k2) = o.filter (fun e => e.1 = k2) := by
  unfold objDelete
  rw [List.filter_filter]
  apply List.filter_congr
  intro e _
  by_cases he2 : e.1 = k2
  · simp [he2, hk]
  · simp [he2]

theorem filter_key_objSet_other {α : Type} (o : List (String × α)) (k k2 : String) (v : α)
    (hk : k2 ≠ k) :
    (objSet o k v).filter (fun e => e.1 = k2) = o.filter (fun e => e.1 = k2) := by
  have hk' : ¬ k = k2 := fun h => hk h.symm
  unfold objSet
  split
  · rename_i hany
    clear hany
    induction o with
    | nil => simp
    | cons e rest ih =>
      by_cases he : e.1 = k
      · have he2 : ¬ e.1 = k2 := by rw [he]; exact hk'
        rw [List.map_cons, if_pos he, List.filter_cons, List.filter_cons]
        simp only [hk', he2, decide_False, Bool.false_eq_true, if_false]
        exact ih
      · rw [List.map_cons, if_neg he, List.filter_cons, List.filter_cons]
        by_cases he2 : e.1 = k2
        · simp only [he2, decide_True, if_true, List.cons.injEq, true_and]
          exact ih
        · simp only [he2, decide_False, Bool.false_eq_true, if_false]
          exact ih
  · split
    · rfl
    · simp [List.filter_append, hk']

theorem castBallot_other (who other : String) (v : Int) (b : BlogPost) (h : other ≠ who) :
    objGet ((castBallot who v b).votes.getD []) other = objGet (b.votes.getD []) other
    ∧ ballotsOf other (castBallot who v b) = ballotsOf other b := by
  unfold ballotsOf castBallot
  simp only [Option.getD_some]
  split
  · exact ⟨objGet_objDelete_other _ _ _ h, by rw [filter_key_objDelete_other _ _ _ h]⟩
  · exact ⟨objGet_objSet_other _ _ _ _ h, by rw [filter_key_objSet_other _ _ _ _ h]⟩

/-- C15. For a logged-in voter (a non-empty username) and every value, `handleVote` stores a
sequence of the same length in which the post at each position keeps its id, title, body,
author and `createdAt` and the ballot of every other voter, a post with another id is unchanged,
and nothing but the blogs document changes; when no stored post has the id, the stored sequence
is unchanged. -/
theorem handleVote_frame (us : Slot (List User)) (cu : Slot User) (P : List BlogPost)
    (id who : String) (v : Int) (hwho : who ≠ "") :
    ∃ P2 : List BlogPost,
      handleVote id (some who) v ⟨us, cu, .data P⟩ = some ⟨⟨us, cu, .data P2⟩, none, none⟩
      ∧ P2.length = P.length
      ∧ (∀ (i : Nat) (b : BlogPost), P[i]? = some b →
          ∃ b2 : BlogPost, P2[i]? = some b2
            ∧ b2.id = b.id ∧ b2.title = b.title ∧ b2.body = b.body ∧ b2.author = b.author
            ∧ b2.createdAt = b.createdAt
            ∧ (b.id ≠ id → b2 = b)
            ∧ (∀ other : String, other ≠ who →
                objGet (b2.votes.getD []) other = objGet (b.votes.getD []) other
                ∧ ballotsOf other b2 = ballotsOf other b))
      ∧ ((∀ b ∈ P, b.id ≠ id) → P2 = P) := by
  refine ⟨_, handleVote_data us cu P id who v hwho, by simp, ?_, ?_⟩
  · intro i b hb
    refine ⟨if b.id ≠ id then b else castBallot who v b, by simp [hb], ?_⟩
    by_cases hid : b.id = id
    · subst hid
      simp only [ne_eq, not_true_eq_false, if_false, false_implies, true_and]
      refine ⟨rfl, rfl, rfl, rfl, rfl, ?_⟩
      intro other hother
      exact castBallot_other who other v b hother
    · simp [hid]
  · intro hno
    conv_rhs => rw [← List.map_id P]
    apply List.map_congr_left
    intro b hb
    simp [hno b hb]

/-- The frame property on `samplePosts`: `alice` downvotes post `b_2`. -/
theorem handleVote_frame_witness :
    "alice" ≠ ""
    ∧ ∃ P2 : List BlogPost,
      handleVote "b_2" (some "alice") (-1) ⟨.empty, .empty, .data samplePosts⟩
        = some ⟨⟨.empty, .empty, .data P2⟩, none, none⟩
      ∧ P2.length = samplePosts.length
      ∧ (∀ (i : Nat) (b : BlogPost), samplePosts[i]? = some b →
          ∃ b2 : BlogPost, P2[i]? = some b2
            ∧ b2.id = b.id ∧ b2.title = b.title ∧ b2.body = b.body ∧ b2.author = b.author
            ∧ b2.createdAt = b.createdAt
            ∧ (b.id ≠ "b_2" → b2 = b)
            ∧ (∀ other : String, other ≠ "alice" →
                objGet (b2.votes.getD []) other = objGet (b.votes.getD []) other
                ∧ ballotsOf other b2 = ballotsOf other b))
      ∧ ((∀ b ∈ samplePosts, b.id ≠ "b_2") → P2 = samplePosts) :=
  ⟨by decide, handleVote_frame .empty .empty samplePosts "b_2" "alice" (-1) (by decide)⟩

/-! ## Usernames stay unique: proofs -/

theorem map_username_congr (f : User → User) (hf : ∀ u, (f u).username = u.username)
    (us : List User) : (us.map f).map User.username = us.map User.username := by
  rw [List.map_map]
  apply List.map_congr_left
  intro u _
  exact hf u

theorem usernamesDistinct_getUsers (now : Int) (st : Storage)
    (hst : st.users = .empty ∨ UsernamesDistinct st) : UsernamesDistinct (getUsers now st).2 := by
  rcases hst with h | ⟨us, h, hd⟩
  · exact ⟨seedUsers now, by simp [getUsers, h], by simp [seedUsers]⟩
  · exact ⟨us, by simp [getUsers, h], hd⟩

theorem usernamesDistinct_run (t : Int) (op : UserOp) (st : Storage)
    (hst : UsernamesDistinct st) : UsernamesDistinct (op.run t st) := by
  obtain ⟨us, h, hd⟩ := hst
  cases op with
  | add tJoin newUser =>
    simp only [UserOp.run, addUser, getUsers_of_data t st us h]
    split
    · exact ⟨us, h, hd⟩
    · split
      · exact ⟨us, h, hd⟩
      · rename_i hany
        refine ⟨_, rfl, ?_⟩
        rw [List.map_append, List.nodup_append]
        refine ⟨hd, by simp, ?_⟩
        intro name hname hmem
        simp only [List.map_cons, List.map_nil, List.mem_singleton] at hmem
        subst hmem
        obtain ⟨u, hu, hun⟩ := List.mem_map.mp hname
        apply hany
        rw [List.any_eq_true]
        exact ⟨u, hu, by simpa using hun⟩
  | edit editing =>
    simp only [UserOp.run, saveEdit, getUsers_of_data t st us h, saveUsers]
    refine ⟨_, rfl, ?_⟩
    rw [map_username_congr _ _ us]
    · exact hd
    · intro u
      by_cases hu : u.username = editing.username
      · simp [hu]
      · simp [hu]
  | delete username confirmed =>
    simp only [UserOp.run, handleDelete]
    split
    · exact ⟨us, h, hd⟩
    · simp only [getUsers_of_data t st us h, saveUsers]
      exact ⟨_, rfl, hd.sublist ((List.filter_sublist _).map _)⟩
  | profile currentUser username form =>
    simp only [UserOp.run, profileSave, getUsers_of_data t st us h, saveUsers]
    have hmap : ((us.map (fun u => if u.username ≠ username then u
        else applyProfileForm currentUser form u)).map User.username).Nodup := by
      rw [map_username_congr _ _ us]
      · exact hd
      · intro u
        by_cases hu : u.username = username
        · simp [hu, applyProfileForm]
        · simp [hu]
    split
    · rw [UsernamesDistinct, setCurrentUser_users]
      exact ⟨_, rfl, hmap⟩
    · exact ⟨_, rfl, hmap⟩

theorem usernamesDistinct_runOps (ops : List (Int × UserOp)) :
    ∀ st : Storage, UsernamesDistinct st → UsernamesDistinct (runOps ops st) := by
  induction ops with
  | nil => intro st hst; exact hst
  | cons op rest ih =>
    intro st hst
    simp only [runOps, List.foldl_cons]
    exact ih _ (usernamesDistinct_run op.1 op.2 st hst)

/-- C12. Usernames are pairwise distinct in every reachable state: the seeded collection has
distinct usernames; starting from an empty users key or a stored collection with distinct
usernames, the collection stored after `getUsers` and any sequence of `addUser`, `saveEdit`,
`handleDelete` and profile save has distinct usernames; each single operation preserves the
property; and `addUser` with a username that is already present alerts and changes nothing. -/
theorem usernames_stay_distinct (now : Int) (st : Storage) (ops : List (Int × UserOp))
    (hst : st.users = .empty ∨ UsernamesDistinct st) :
    UsernamesDistinct (runOps ops (getUsers now st).2)
    ∧ (∀ t : Int, ((seedUsers t).map User.username).Nodup)
    ∧ (∀ (t : Int) (op : UserOp) (s : Storage),
        UsernamesDistinct s → UsernamesDistinct (op.run t s))
    ∧ (∀ (t tJoin : Int) (newUser : NewUser) (us : List User) (cu : Slot User)
        (bl : Slot (List BlogPost)), (∃ u ∈ us, u.username = newUser.username) →
        (addUser t tJoin newUser ⟨.data us, cu, bl⟩).storage = ⟨.data us, cu, bl⟩
        ∧ (addUser t tJoin newUser ⟨.data us, cu, bl⟩).alert.isSome = true) := by
  refine ⟨usernamesDistinct_runOps ops _ (usernamesDistinct_getUsers now st hst),
    fun t => by simp [seedUsers], fun t op s hs => usernamesDistinct_run t op s hs, ?_⟩
  intro t tJoin newUser us cu bl hex
  have hany : us.any (fun u => u.username = newUser.username) = true := by
    rw [List.any_eq_true]
    obtain ⟨u, hu, hun⟩ := hex
    exact ⟨u, hu, by simpa using hun⟩
  simp only [addUser, getUsers, hany, if_true]
  split
  · exact ⟨rfl, rfl⟩
  · exact ⟨rfl, rfl⟩

/-- The invariant on a fresh medium: add `bob`, try to add `bob` again, edit, save a profile
and delete the administrator. -/
theorem usernames_stay_distinct_witness :
    ((⟨.empty, .empty, .empty⟩ : Storage).users = .empty
        ∨ UsernamesDistinct ⟨.empty, .empty, .empty⟩)
    ∧ (UsernamesDistinct (runOps
          [((1 : Int), UserOp.add 1 sampleNewUser), (2, UserOp.add 2 sampleNewUser),
           (3, UserOp.edit sampleBob), (4, UserOp.profile sampleBob "bob" sampleForm),
           (5, UserOp.delete "gyatt123" true)]
          (getUsers 0 ⟨.empty, .empty, .empty⟩).2)
      ∧ (∀ t : Int, ((seedUsers t).map User.username).Nodup)
      ∧ (∀ (t : Int) (op : UserOp) (s : Storage),
          UsernamesDistinct s → UsernamesDistinct (op.run t s))
      ∧ (∀ (t tJoin : Int) (newUser : NewUser) (us : List User) (cu : Slot User)
          (bl : Slot (List BlogPost)), (∃ u ∈ us, u.username = newUser.username) →
          (addUser t tJoin newUser ⟨.data us, cu, bl⟩).storage = ⟨.data us, cu, bl⟩
          ∧ (addUser t tJoin newUser ⟨.data us, cu, bl⟩).alert.isSome = true)) :=
  ⟨Or.inl rfl, usernames_stay_distinct 0 ⟨.empty, .empty, .empty⟩ _ (Or.inl rfl)⟩

/-! ## Profile save: proofs -/

theorem profileSave_users (t : Int) (actor : User) (username : String) (form : ProfileForm)
    (us : List User) (cu : Slot User) (bl : Slot (List BlogPost)) :
    (profileSave t actor username form ⟨.data us, cu, bl⟩).users
      = .data (us.map (fun u => if u.username ≠ username then u
                                else applyProfileForm actor form u)) := by
  simp only [profileSave, getUsers, saveUsers]
  split
  · rw [setCurrentUser_users]
  · rfl

theorem profileSave_blogs (t : Int) (actor : User) (username : String) (form : ProfileForm)
    (us : List User) (cu : Slot User) (bl : Slot (List BlogPost)) :
    (profileSave t actor username form ⟨.data us, cu, bl⟩).blogs = bl := by
  simp only [profileSave, getUsers, saveUsers]
  split
  · unfold setCurrentUser
    split <;> rfl
  · rfl

theorem profileSave_session (t : Int) (actor : User) (username : String) (form : ProfileForm)
    (us : List User) (cu : Slot User) (bl : Slot (List BlogPost))
    (heq : actor.username = username) :
    (profileSave t actor username form ⟨.data us, cu, bl⟩).currentUser
      = (match us.find? (fun x => x.username = username) with
         | some u => .data (applyProfileForm actor form u)
         | none => .empty) := by
  have hfind : (us.map (fun u => if u.username ≠ username then u
      else applyProfileForm actor form u)).find? (fun x => x.username = username)
      = (us.find? (fun x => x.username = username)).map (applyProfileForm actor form) := by
    rw [List.find?_map]
    have hcomp : ((fun x : User => decide (x.username = username)) ∘
        (fun u => if u.username ≠ username then u else applyProfileForm actor form u))
        = (fun x : User => decide (x.username = username)) := by
      funext x
      by_cases hx : x.username = username
      · simp [hx, applyProfileForm]
      · simp [hx]
    rw [hcomp]
    cases hu : us.find? (fun x => decide (x.username = username)) with
    | none => rfl
    | some u =>
      have hun : u.username = username := by
        have := List.find?_some hu
        simpa using this
      simp [hun]
  simp only [profileSave, getUsers, saveUsers, if_pos heq, hfind]
  cases us.find? (fun x => decide (x.username = username)) <;> rfl

/-- C13. A profile save attempted without sufficient role changes nothing: for an acting
session that is neither the target nor an administrator `canEdit` is false, the page shows no
Save button, and the attempt leaves the whole medium (users collection and session included)
as it was (so for `mallory` on the profile of `bob`). For an acting owner who is not an
administrator the attempt runs `save` exactly when
the page has loaded the user and is in edit mode; `save` leaves every record with another
username unchanged and, in a record with the target username, sets `fullname`, `bio` and `pfp`
from the form and keeps `username`, `password`, `email`, `classLevel`, `joinedAt` and `role`;
it leaves the blogs document unchanged and sets the session document to the updated target
record (removing it when no stored record has the target username). -/
theorem attemptSave_spec (t : Int) (user : Option User) (editing : Bool) (actor : User)
    (username : String) (form : ProfileForm) (us : List User) (cu : Slot User)
    (bl : Slot (List BlogPost)) (hrole : actor.role ≠ "admin") :
    (actor.username ≠ username →
        canEdit actor username = false
        ∧ saveButtonRendered user actor username editing = false
        ∧ attemptSave t user editing actor username form ⟨.data us, cu, bl⟩
            = ⟨.data us, cu, bl⟩)
    ∧ (actor.username = username →
        attemptSave t user editing actor username form ⟨.data us, cu, bl⟩
          = (if user.isSome = true ∧ editing = true
             then profileSave t actor username form ⟨.data us, cu, bl⟩
             else ⟨.data us, cu, bl⟩))
    ∧ (∃ us2 : List User,
        (profileSave t actor username form ⟨.data us, cu, bl⟩).users = .data us2
        ∧ us2.length = us.length
        ∧ ∀ (i : Nat) (u : User), us[i]? = some u →
            ∃ u2 : User, us2[i]? = some u2
              ∧ u2.username = u.username ∧ u2.password = u.password ∧ u2.email = u.email
              ∧ u2.classLevel = u.classLevel ∧ u2.joinedAt = u.joinedAt ∧ u2.role = u.role
              ∧ (u.username ≠ username → u2 = u)
              ∧ (u.username = username →
                  u2.fullname = form.fullname ∧ u2.bio = form.bio
                  ∧ u2.pfp = (if form.pfp ≠ "" then form.pfp else u.pfp)))
    ∧ (profileSave t actor username form ⟨.data us, cu, bl⟩).blogs = bl
    ∧ (actor.username = username →
        (profileSave t actor username form ⟨.data us, cu, bl⟩).currentUser
          = (match us.find? (fun x => x.username = username) with
             | some u => .data { u with fullname := form.fullname, bio := form.bio,
                                        pfp := if form.pfp ≠ "" then form.pfp else u.pfp }
             | none => .empty))
    ∧ attemptSave 5 (some sampleBob) true sampleMallory "bob" sampleForm
          ⟨.data [sampleBob, sampleMallory], .data sampleMallory, .empty⟩
        = ⟨.data [sampleBob, sampleMallory], .data sampleMallory, .empty⟩ := by
  refine ⟨?_, ?_, ⟨_, profileSave_users t actor username form us cu bl, by simp, ?_⟩,
    profileSave_blogs t actor username form us cu bl, ?_, by decide⟩
  · intro hne
    have hc : canEdit actor username = false := by simp [canEdit, hne, hrole]
    have hb : saveButtonRendered user actor username editing = false := by
      simp [saveButtonRendered, hc]
    refine ⟨hc, hb, ?_⟩
    simp [attemptSave, hb]
  · intro heq
    have hc : canEdit actor username = true := by simp [canEdit, heq]
    cases user <;> cases editing <;> simp [attemptSave, saveButtonRendered, hc]
  · intro i u hu
    refine ⟨if u.username ≠ username then u else applyProfileForm actor form u,
      by simp [hu], ?_⟩
    by_cases hn : u.username = username
    · simp [hn, applyProfileForm, hrole]
    · simp [hn]
  · intro heq
    rw [profileSave_session t actor username form us cu bl heq]
    cases us.find? (fun x => decide (x.username = username)) with
    | none => rfl
    | some u => simp [applyProfileForm, hrole]

/-- The statement of C13 for the actor `bob`, who is not an administrator, on the profile of
`bob`, with the page loaded and in edit mode. -/
theorem attemptSave_spec_witness :
    sampleBob.role ≠ "admin"
    ∧ ((sampleBob.username ≠ "bob" →
          canEdit sampleBob "bob" = false
          ∧ saveButtonRendered (some sampleBob) sampleBob "bob" true = false
          ∧ attemptSave 5 (some sampleBob) true sampleBob "bob" sampleForm
              ⟨.data [sampleBob, sampleMallory], .data sampleBob, .empty⟩
              = ⟨.data [sampleBob, sampleMallory], .data sampleBob, .empty⟩)
      ∧ (sampleBob.username = "bob" →
          attemptSave 5 (some sampleBob) true sampleBob "bob" sampleForm
              ⟨.data [sampleBob, sampleMallory], .data sampleBob, .empty⟩
            = (if (some sampleBob).isSome = true ∧ true = true
               then profileSave 5 sampleBob "bob" sampleForm
                      ⟨.data [sampleBob, sampleMallory], .data sampleBob, .empty⟩
               else ⟨.data [sampleBob, sampleMallory], .data sampleBob, .empty⟩))
      ∧ (∃ us2 : List User,
          (profileSave 5 sampleBob "bob" sampleForm
              ⟨.data [sampleBob, sampleMallory], .data sampleBob, .empty⟩).users = .data us2
          ∧ us2.length = [sampleBob, sampleMallory].length
          ∧ ∀ (i : Nat) (u : User), [sampleBob, sampleMallory][i]? = some u →
              ∃ u2 : User, us2[i]? = some u2
                ∧ u2.username = u.username ∧ u2.password = u.password ∧ u2.email = u.email
                ∧ u2.classLevel = u.classLevel ∧ u2.joinedAt = u.joinedAt ∧ u2.role = u.role
                ∧ (u.username ≠ "bob" → u2 = u)
                ∧ (u.username = "bob" →
                    u2.fullname = sampleForm.fullname ∧ u2.bio = sampleForm.bio
                    ∧ u2.pfp = (if sampleForm.pfp ≠ "" then sampleForm.pfp else u.pfp)))
      ∧ (profileSave 5 sampleBob "bob" sampleForm
            ⟨.data [sampleBob, sampleMallory], .data sampleBob, .empty⟩).blogs = .empty
      ∧ (sampleBob.username = "bob" →
          (profileSave 5 sampleBob "bob" sampleForm
              ⟨.data [sampleBob, sampleMallory], .data sampleBob, .empty⟩).currentUser
            = (match [sampleBob, sampleMallory].find? (fun x => x.username = "bob") with
               | some u => .data { u with fullname := sampleForm.fullname, bio := sampleForm.bio,
                                          pfp := if sampleForm.pfp ≠ "" then sampleForm.pfp
                                                 else u.pfp }
               | none => .empty))
      ∧ attemptSave 5 (some sampleBob) true sampleMallory "bob" sampleForm
            ⟨.data [sampleBob, sampleMallory], .data sampleMallory, .empty⟩
          = ⟨.data [sampleBob, sampleMallory], .data sampleMallory, .empty⟩) :=
  ⟨by decide,
   attemptSave_spec 5 (some sampleBob) true sampleBob "bob" sampleForm
     [sampleBob, sampleMallory] (.data sampleBob) .empty (by decide)⟩

end Nerddle
